import Mathlib

/-!
# fc_malloc2: block headers, recycle bins and the thread arena

A shallow embedding of the allocator's C++ sources.

* Pointers are natural numbers, `0` is `nullptr`.
* Header memory is a map from addresses to `block_header` values; the two link
  words a free block keeps in its body (`queue_state`) live in a second map keyed
  by the address of the block's header.
* Integer fields are mathematical integers; every store into a header field reduces
  the value to the width of the field (`_size : 28`, `_flags : 4`, `int32_t`).
  Counters that move by one per step are not wrapped.
* Operations that trap (null dereference, division by zero, a failed assertion, an
  uncaught exception) end in a `Fault`.
-/

namespace fc_malloc2

/-! ## common.h -/

abbrev MIN_BLOCK_SIZE : Nat := 8
abbrev HEDER_SIZE : Nat := 8
abbrev CHUNK_SIZE : Nat := 256 * 1024
abbrev ALIGN_CHUNK_SIZE : Nat := CHUNK_SIZE
abbrev SMALL_BIN_BITS : Nat := 10
abbrev SMALL_BIN_CAPCITY : Nat := 1 <<< SMALL_BIN_BITS
abbrev SMALL_BIN_SIZE : Nat := SMALL_BIN_CAPCITY - HEDER_SIZE
abbrev SMALL_BIN_CACHE_NUM : Nat := 4
abbrev NUM_LARGE_BINS : Nat := 56
abbrev NUM_SMALL_BINS : Nat := 21
abbrev NUM_BINS : Nat := NUM_LARGE_BINS + NUM_SMALL_BINS
abbrev SMALL_BLOCK : Nat := 336
abbrev LARGE_BLOCK : Nat := CHUNK_SIZE
abbrev QUEUE_SIZE : Nat := 128
abbrev LIST_CACHE_NUM : Nat := 4

/-! ## Machine integers -/

/-- Two's complement reduction of `x` to a signed field of 28 bits. -/
def wrap28 (x : Int) : Int := (x + 2 ^ 27) % 2 ^ 28 - 2 ^ 27

/-- Two's complement reduction of `x` to `int32_t`. -/
def wrap32 (x : Int) : Int := (x + 2 ^ 31) % 2 ^ 32 - 2 ^ 31

/-- Two's complement reduction of `x` to `int64_t`. -/
def wrap64 (x : Int) : Int := (x + 2 ^ 63) % 2 ^ 64 - 2 ^ 63

/-- What ends a call that the C++ leaves undefined. -/
inductive Fault where
  | null_deref
  | div_by_zero
  | assert_failed
  | bad_alloc
  | segv
  | no_fuel
deriving DecidableEq, Repr

/-! ## block_header.h -/

/-- The 8-byte header: `int32_t _prev_size; int32_t _size : 28; int32_t _flags : 4`.
`_flags` is kept as its 4-bit pattern. -/
structure block_header where
  _prev_size : Int
  _size : Int
  _flags : Nat
deriving DecidableEq, Repr

/-- Header memory: the header read at each address. A header is 8 bytes wide, so the
memory is exact for headers that lie at least 8 bytes apart, those on the 8-byte grid in
particular. -/
abbrev Mem := Nat → block_header

/-- Store into the `int32_t _prev_size` field of the header at `a`. -/
def store_prev_size (m : Mem) (a : Nat) (v : Int) : Mem :=
  fun x => if x = a then { m x with _prev_size := wrap32 v } else m x

/-- Store into the 28-bit `_size` field of the header at `a`. -/
def store_size (m : Mem) (a : Nat) (v : Int) : Mem :=
  fun x => if x = a then { m x with _size := wrap28 v } else m x

/-- Store into the 4-bit `_flags` field of the header at `a`. -/
def store_flags (m : Mem) (a : Nat) (v : Nat) : Mem :=
  fun x => if x = a then { m x with _flags := v % 16 } else m x

namespace block_header

/-- The `flags_enum` value `unknown`. -/
abbrev unknown : Nat := 0
/-- The `flags_enum` value `mergable`. -/
abbrev mergable : Nat := 1
/-- The `flags_enum` value `bigdata`. -/
abbrev bigdata : Nat := 2
/-- The `flags_enum` value `alignblock`. -/
abbrev alignblock : Nat := 4
/-- The `flags_enum` value `metablock`. -/
abbrev metablock : Nat := 8

/-- The method `size()`: `abs(_size)`. -/
def size (h : block_header) : Int := (h._size.natAbs : Int)

/-- The method `data()`: the address right after the header. -/
def data (this : Nat) : Nat := this + 8

/-- The method `next()`: the header that follows the body, `nullptr` unless `_size > 0`. -/
def next (m : Mem) (this : Nat) : Nat :=
  if 0 < (m this)._size then this + 8 + (m this)._size.toNat else 0

/-- The method `prev()`: `nullptr` when `_prev_size <= 0`, else `this - _prev_size - 8`. -/
def prev (m : Mem) (this : Nat) : Nat :=
  if (m this)._prev_size ≤ 0 then 0 else ((this : Int) - (m this)._prev_size - 8).toNat

/-- The method `set_state(e)`: `_flags |= e`. -/
def set_state (m : Mem) (this : Nat) (e : Nat) : Mem :=
  store_flags m this ((m this)._flags ||| e)

/-- The method `unset_state(e)`: `_flags &= ~e`. -/
def unset_state (m : Mem) (this : Nat) (e : Nat) : Mem :=
  store_flags m this ((m this)._flags &&& (15 ^^^ e))

/-- The method `is_mergable()`: `(_flags &= mergable) != 0`; the compound assignment
stores the masked flags back into the header. -/
def is_mergable (m : Mem) (this : Nat) : Mem × Bool :=
  let m1 := store_flags m this ((m this)._flags &&& mergable)
  (m1, (m1 this)._flags != 0)

/-- The method `is_bigdata()`: `(_flags &= bigdata) != 0`. -/
def is_bigdata (m : Mem) (this : Nat) : Mem × Bool :=
  let m1 := store_flags m this ((m this)._flags &&& bigdata)
  (m1, (m1 this)._flags != 0)

/-- The method `is_aligned()`: `(_flags &= alignblock) != 0`. -/
def is_aligned (m : Mem) (this : Nat) : Mem × Bool :=
  let m1 := store_flags m this ((m this)._flags &&& alignblock)
  (m1, (m1 this)._flags != 0)

/-- The method `is_meta()`: `(_flags &= metablock) != 0`. -/
def is_meta (m : Mem) (this : Nat) : Mem × Bool :=
  let m1 := store_flags m this ((m this)._flags &&& metablock)
  (m1, (m1 this)._flags != 0)

/-- The method `init(s)`: `_prev_size = 0; _size = -(s - 8)`. The flags are not written. -/
def init (m : Mem) (this : Nat) (s : Int) : Mem :=
  store_size (store_prev_size m this 0) this (-(s - 8))

/-- The method `split_after(s)`, statement by statement: the new header `n` at `data() + s`
gets `_prev_size = s` and `_size = size() - s - 8`, negated when this block is the tail;
then `_size = s`. Returns the memory and `n`. -/
def split_after (m : Mem) (this : Nat) (s : Int) : Mem × Nat :=
  let n := ((this : Int) + 8 + s).toNat
  let m1 := store_prev_size m n s
  let m2 := store_size m1 n (size (m1 this) - s - 8)
  let m3 := if (m2 this)._size < 0 then store_size m2 n (-(m2 n)._size) else m2
  (store_size m3 this s, n)

/-- The method `merge_next()`, statement by statement. Returns the memory and `this`. -/
def merge_next (m : Mem) (this : Nat) : Mem × Nat :=
  let nxt := next m this
  if nxt = 0 then (m, this)
  else
    let m1 := (is_mergable m nxt).1
    if (is_mergable m nxt).2 = false then (m1, this)
    else
      let m2 := store_size m1 this ((m1 this)._size + size (m1 nxt) + 8)
      let m3 := if (m2 nxt)._size < 0 then store_size m2 this (-(m2 this)._size) else m2
      let nxt2 := next m3 this
      let m4 := if nxt2 = 0 then m3 else store_prev_size m3 nxt2 (size (m3 this))
      (m4, this)

/-- The method `merge_prev()`: returns the memory and the head of the resulting block. -/
def merge_prev (m : Mem) (this : Nat) : Mem × Nat :=
  let p := prev m this
  if p = 0 then (m, this)
  else
    let m1 := (is_mergable m p).1
    if (is_mergable m p).2 = false then (m1, this)
    else merge_next m1 p

end block_header

/-! ## Pages of blocks -/

/-- Memory as `mmap` hands it out: every header reads as zero. -/
def zero_mem : Mem := fun _ => { _prev_size := 0, _size := 0, _flags := 0 }

/-- Walk from the block at `a` through `next()` until it returns `nullptr`, at most
`fuel` blocks; `none` when the fuel runs out before the walk ends. -/
def walk (m : Mem) : Nat → Nat → Option (List Nat)
  | 0, _ => none
  | fuel + 1, a =>
    if block_header.next m a = 0 then some [a]
    else (walk m fuel (block_header.next m a)).map (fun bs => a :: bs)

/-- The blocks of the page that starts at `base`, as the walk finds them. -/
def page_blocks (m : Mem) (base fuel : Nat) : List Nat :=
  (walk m fuel base).getD []

/-- The sum of `size() + 8` over the listed blocks. -/
def page_bytes (m : Mem) (bs : List Nat) : Int :=
  (bs.map (fun a => (m a).size + 8)).sum

/-- The last walked block is a tail sentinel: its stored `_size` is negative. -/
def ends_at_tail (m : Mem) (bs : List Nat) : Prop :=
  ∃ t, bs.getLast? = some t ∧ (m t)._size < 0

/-- A page operation on the block at address `a`; `mark` is `set_state(mergable)`, the tag
the collector puts on a block before it merges. -/
inductive page_op where
  | split (a : Nat) (n : Int)
  | mark (a : Nat)
  | merge_next (a : Nat)
  | merge_prev (a : Nat)

/-- Run one page operation. -/
def page_op.run (m : Mem) : page_op → Mem
  | .split a n => (block_header.split_after m a n).1
  | .mark a => block_header.set_state m a block_header.mergable
  | .merge_next a => (block_header.merge_next m a).1
  | .merge_prev a => (block_header.merge_prev m a).1

/-- Header memories reachable from a page of `page_size` bytes initialised at `base` by
`init` on the memory `m0`, through `split_after(n)` with `n` a multiple of 8, `lo ≤ n` and
`n + hi ≤ size()`, `set_state(mergable)`, `merge_next` and `merge_prev`, each applied to a
block the walk from `base` finds. -/
inductive page_reachable (lo hi : Int) (base page_size : Nat) (m0 : Mem) : Mem → Prop
  | init : page_reachable lo hi base page_size m0 (block_header.init m0 base page_size)
  | split (m : Mem) (a : Nat) (n : Int) :
      page_reachable lo hi base page_size m0 m → a ∈ page_blocks m base page_size →
      lo ≤ n → n + hi ≤ (m a).size → n % 8 = 0 →
      page_reachable lo hi base page_size m0 (block_header.split_after m a n).1
  | mark (m : Mem) (a : Nat) :
      page_reachable lo hi base page_size m0 m → a ∈ page_blocks m base page_size →
      page_reachable lo hi base page_size m0
        (block_header.set_state m a block_header.mergable)
  | merge_next (m : Mem) (a : Nat) :
      page_reachable lo hi base page_size m0 m → a ∈ page_blocks m base page_size →
      page_reachable lo hi base page_size m0 (block_header.merge_next m a).1
  | merge_prev (m : Mem) (a : Nat) :
      page_reachable lo hi base page_size m0 m → a ∈ page_blocks m base page_size →
      page_reachable lo hi base page_size m0 (block_header.merge_prev m a).1

/-- The header cells of the memory `m` stay on the 8-byte grid: every cell at a multiple of
8 holds a `_prev_size` and a `_size` that are multiples of 8, and every cell at another
address is as in `m0`, never written. Headers at multiples of 8 do not share bytes. -/
def cells_ok (m0 m : Mem) : Prop :=
  (∀ a, a % 8 = 0 → (m a)._prev_size % 8 = 0 ∧ (m a)._size % 8 = 0) ∧
  (∀ a, a % 8 ≠ 0 → m a = m0 a)

/-- The blocks `bs`, starting at `a`, follow one another through `next()`, and the last one
is a tail sentinel whose body ends at address `e`. -/
inductive Chain (m : Mem) (e : Nat) : Nat → List Nat → Prop
  | tail (a : Nat) : (m a)._size < 0 → (a : Int) + 8 - (m a)._size = e → Chain m e a [a]
  | cons (a : Nat) (bs : List Nat) : 0 < (m a)._size →
      Chain m e (a + 8 + (m a)._size.toNat) bs → Chain m e a (a :: bs)

/-! ## block_list.h -/

/-- The two link words a free block keeps at `data()`: `queue_state { next; prev }`. -/
structure queue_state where
  next : Nat
  prev : Nat
deriving DecidableEq, Repr

/-- Link memory: the `queue_state` of the block whose header is at each address. The two
link words are the 16 bytes at `data()`, so the memory is exact for blocks whose headers
lie at least 24 bytes apart; closer blocks share link bytes. -/
abbrev Links := Nat → queue_state

/-- Store into the `next` link of block `h`. -/
def store_next (lk : Links) (h v : Nat) : Links :=
  fun x => if x = h then { lk x with next := v } else lk x

/-- Store into the `prev` link of block `h`. -/
def store_prev (lk : Links) (h v : Nat) : Links :=
  fun x => if x = h then { lk x with prev := v } else lk x

/-- Link memory with every link null. -/
def zero_links : Links := fun _ => { next := 0, prev := 0 }

namespace block_list

/-- The method `push(h)` on the list whose head pointer is `_free_list`: returns the link
memory and the new head. A null `h` is dereferenced. -/
def push (lk : Links) (_free_list : Nat) (h : Nat) : Except Fault (Links × Nat) :=
  if h = 0 then .error Fault.null_deref
  else
    let lk1 := store_prev (store_next lk h 0) h 0
    let lk2 := store_next lk1 h _free_list
    let lk3 := if _free_list = 0 then lk2 else store_prev lk2 _free_list h
    .ok (lk3, h)

/-- The method `pop()`: returns the link memory, the new head and the popped block
(`nullptr` on the empty list). The source tests `if (empty)`, the member function and not
a call of it, which does not compile; it is read as `if (empty())`. -/
def pop (lk : Links) (_free_list : Nat) : Links × Nat × Nat :=
  if _free_list = 0 then (lk, _free_list, 0)
  else
    let h := (lk _free_list).next
    let lk1 := if h = 0 then lk else store_prev lk h 0
    (lk1, h, _free_list)

/-- The method `remove(h)`: returns the link memory and the new head. -/
def remove (lk : Links) (_free_list : Nat) (h : Nat) : Except Fault (Links × Nat) :=
  if h = 0 then .error Fault.null_deref
  else
    let prev_header := (lk h).prev
    let next_header := (lk h).next
    if prev_header = 0 then .ok (lk, next_header)
    else
      let lk1 := store_next lk prev_header next_header
      let lk2 := if next_header = 0 then lk1 else store_prev lk1 next_header prev_header
      .ok (lk2, _free_list)

/-- The method `peek()`. -/
def peek (_free_list : Nat) : Nat := _free_list

/-- The blocks met from `head` through the `next` links, at most `fuel` of them. -/
def traverse (lk : Links) : Nat → Nat → List Nat
  | 0, _ => []
  | fuel + 1, head => if head = 0 then [] else head :: traverse lk fuel (lk head).next

end block_list

/-- The list headed by `head` holds exactly the blocks `xs`, in order, linked through
`next`. -/
def is_list (lk : Links) : Nat → List Nat → Prop
  | head, [] => head = 0
  | head, x :: xs => head = x ∧ x ≠ 0 ∧ is_list lk (lk x).next xs

/-- Header memory and link memory together. -/
structure Heap where
  hdr : Mem
  lnk : Links

/-- The heap of a fresh process: zero headers, null links. -/
def zero_heap : Heap := { hdr := zero_mem, lnk := zero_links }

/-! ## garbage_collect.h -/

/-- The 8 bytes of a header read as one little-endian word: `_prev_size` in the low 32
bits, then the 28 bits of `_size`, then the 4 flag bits. -/
def word_of_header (h : block_header) : Nat :=
  (h._prev_size % 2 ^ 32).toNat + 2 ^ 32 * ((h._size % 2 ^ 28).toNat + 2 ^ 28 * (h._flags % 16))

/-- The header that the 8-byte word `w` reads as. -/
def header_of_word (w : Nat) : block_header :=
  { _prev_size := wrap32 ((w % 2 ^ 32 : Nat) : Int),
    _size := wrap28 (((w / 2 ^ 32) % 2 ^ 28 : Nat) : Int),
    _flags := (w / 2 ^ 60) % 16 }

/-- The hand-off of one thread: `_gc_at_bat` and `_gc_on_deck`. -/
structure garbage_collect where
  _gc_at_bat : Nat
  _gc_on_deck : Nat
deriving DecidableEq, Repr

namespace garbage_collect

/-- The method `constructor()`. -/
def constructor : garbage_collect := { _gc_at_bat := 0, _gc_on_deck := 0 }

/-- The method `release(h)`. `as_block_list(_gc_on_deck)` casts the value of `_gc_on_deck`,
so the list object `push` works on lies at the address `_gc_on_deck` holds: with a null
`_gc_on_deck` the push dereferences null; otherwise its `_free_list` member is the first
word of the block `_gc_on_deck` points to. -/
def release (H : Heap) (g : garbage_collect) (h : Nat) : Except Fault (Heap × garbage_collect) :=
  if g._gc_on_deck = 0 then .error Fault.null_deref
  else
    match block_list.push H.lnk (word_of_header (H.hdr g._gc_on_deck)) h with
    | .error e => .error e
    | .ok (lk, fl) =>
      let H1 : Heap :=
        { hdr := fun x => if x = g._gc_on_deck then header_of_word fl else H.hdr x, lnk := lk }
      if g._gc_at_bat = 0 then .ok (H1, { _gc_at_bat := g._gc_on_deck, _gc_on_deck := 0 })
      else .ok (H1, g)

/-- The method `get_garbage()`: returns the hand-off and the list taken. -/
def get_garbage (g : garbage_collect) : garbage_collect × Nat :=
  if g._gc_at_bat = 0 then (g, 0) else ({ g with _gc_at_bat := 0 }, g._gc_at_bat)

end garbage_collect

/-! ## ring_buffer.h, recycle_bin.h

The positions and `_full_count` are 64-bit counters that move by one per step; they are
kept as integers without wrap-around. `_full *= 2` and the conversions to `int` wrap. -/

/-- The slot of position `pos`: `pos & (Size - 1)` with `Size = QUEUE_SIZE`. -/
def ring_index (pos : Int) : Nat := (pos % 128).toNat

/-- A recycle bin: the ring `_free_queue`, the positions, the controller fields and the head
pointer of `_free_list`. -/
structure recycle_bin where
  _free_queue : Nat → Nat
  _read_pos : Int
  _write_pos : Int
  _full_count : Int
  _full : Int
  _free_list : Nat

namespace recycle_bin

/-- The constructor: positions and `_full` zero, the ring zeroed, the free list empty.
`_full_count` is not initialised there; the bins are members of a static object, so it
starts at zero. -/
def constructor : recycle_bin :=
  { _free_queue := fun _ => 0, _read_pos := 0, _write_pos := 0, _full_count := 0, _full := 0,
    _free_list := 0 }

/-- The method `available()`. -/
def available (rb : recycle_bin) : Int := rb._write_pos - rb._read_pos

/-- The method `claim(num)`: `_read_pos.fetch_add(num)`, returns the bin and the old
position. -/
def claim (rb : recycle_bin) (num : Int) : recycle_bin × Int :=
  ({ rb with _read_pos := rb._read_pos + num }, rb._read_pos)

/-- The method `get_block(claim_pos)`. -/
def get_block (rb : recycle_bin) (claim_pos : Int) : Nat :=
  rb._free_queue (ring_index claim_pos)

/-- Write `v` into the slot of position `pos`. -/
def set_block (rb : recycle_bin) (pos : Int) (v : Nat) : recycle_bin :=
  { rb with _free_queue := fun i => if i = ring_index pos then v else rb._free_queue i }

/-- The method `clear_block(claim_pos)`. -/
def clear_block (rb : recycle_bin) (claim_pos : Int) : recycle_bin :=
  set_block rb claim_pos 0

/-- The method `check_status()`: returns the bin and the number of blocks to publish. -/
def check_status (rb : recycle_bin) : recycle_bin × Int :=
  let av := rb.available
  if av < 0 then
    let full1 := if rb._full = 0 then 2 else wrap64 (rb._full * 2)
    let full2 := max av full1
    let full3 := max full2 ((QUEUE_SIZE : Int) - 1)
    let c := claim { rb with _full := full3 } 1
    ({ c.1 with _write_pos := c.2 }, full3)
  else if av > 0 then
    let consumed := wrap32 (rb._full - av)
    let full1 := rb._full - 1
    let full2 := if full1 < 0 then 0 else full1
    ({ rb with _full := full2 }, if consumed = 0 then -1 else consumed)
  else (rb, rb._full)

/-- The method `clear_cached_block(h)`. -/
def clear_cached_block (H : Heap) (rb : recycle_bin) (h : Nat) :
    Except Fault (Heap × recycle_bin) :=
  match block_list.remove H.lnk rb._free_list h with
  | .error e => .error e
  | .ok (lk, fl) => .ok ({ H with lnk := lk }, { rb with _free_list := fl })

/-- The method `cache_block(h)`. -/
def cache_block (H : Heap) (rb : recycle_bin) (h : Nat) : Except Fault (Heap × recycle_bin) :=
  match block_list.push H.lnk rb._free_list h with
  | .error e => .error e
  | .ok (lk, fl) => .ok ({ H with lnk := lk }, { rb with _free_list := fl })

/-- The method `get_cache_block()`: pops the free list and clears MERGEABLE on the popped
block without testing it against null. -/
def get_cache_block (H : Heap) (rb : recycle_bin) : Except Fault (Heap × recycle_bin × Nat) :=
  let p := block_list.pop H.lnk rb._free_list
  if p.2.2 = 0 then .error Fault.null_deref
  else
    .ok ({ hdr := block_header.unset_state H.hdr p.2.2 block_header.mergable, lnk := p.1 },
      { rb with _free_list := p.2.1 }, p.2.2)

/-- The `while (next && needed > 0)` loop of `produce_block_to_ring_buffer`, with `needed`
as the recursion argument. Returns heap, bin, `next`, `next_write_pos`, `found_work`. -/
def produce_loop (H : Heap) (rb : recycle_bin) (next : Nat) (next_write_pos : Int)
    (found_work : Bool) : Nat → Except Fault (Heap × recycle_bin × Nat × Int × Bool)
  | 0 => .ok (H, rb, next, next_write_pos, found_work)
  | needed + 1 =>
    if next = 0 then .ok (H, rb, next, next_write_pos, found_work)
    else if rb._free_queue (ring_index (next_write_pos + 1)) = 0 then
      match get_cache_block H (set_block rb (next_write_pos + 1) next) with
      | .error e => .error e
      | .ok (H1, rb1, next1) => produce_loop H1 rb1 next1 (next_write_pos + 1) true needed
    else produce_loop H rb next (next_write_pos + 1) true needed

/-- The method `produce_block_to_ring_buffer()`: returns heap, bin and `found_work`. -/
def produce_block_to_ring_buffer (H : Heap) (rb : recycle_bin) :
    Except Fault (Heap × recycle_bin × Bool) :=
  let cs := check_status rb
  if 0 < cs.2 then
    match get_cache_block H { cs.1 with _full_count := 0 } with
    | .error e => .error e
    | .ok (H1, rb1, next) =>
      match produce_loop H1 rb1 next rb1._write_pos false cs.2.toNat with
      | .error e => .error e
      | .ok (H2, rb2, next2, nwp, found) =>
        if next2 = 0 then .ok (H2, { rb2 with _write_pos := nwp }, found)
        else
          match cache_block H2 rb2 next2 with
          | .error e => .error e
          | .ok (H3, rb3) => .ok (H3, { rb3 with _write_pos := nwp }, found)
  else .ok (H, { cs.1 with _full_count := cs.1._full_count + 1 }, false)

/-- The `for` loop of `reclaim_ring_buffer`, `i` running up to `av`; `left` is `av - i`. -/
def reclaim_loop (av : Int) (H : Heap) (rb : recycle_bin) : Nat → Except Fault (Heap × recycle_bin)
  | 0 => .ok (H, rb)
  | left + 1 =>
    let c := claim rb 1
    if c.2 ≤ av then
      let h := get_block c.1 c.2
      if h = 0 then reclaim_loop av H c.1 left
      else
        match cache_block { H with hdr := block_header.set_state H.hdr h block_header.mergable }
            c.1 h with
        | .error e => .error e
        | .ok (H1, rb1) => reclaim_loop av H1 rb1 left
    else .ok (H, c.1)

/-- The method `reclaim_ring_buffer()`. -/
def reclaim_ring_buffer (H : Heap) (rb : recycle_bin) : Except Fault (Heap × recycle_bin) :=
  if 10000 < rb._full_count then
    match reclaim_loop (wrap32 rb.available) H rb (wrap32 rb.available).toNat with
    | .error e => .error e
    | .ok (H1, rb1) => .ok (H1, { rb1 with _full_count := 0 })
  else .ok (H, rb)

end recycle_bin

/-! ## bin_allocator.h: the claim of a consumer -/

/-- The method `bin_allocator::fetch_block_from_middle(rb)`: returns the bin and the value
returned; `none` when control reaches the end of the function, which has no `return`
statement there. -/
def fetch_block_from_middle (rb : recycle_bin) : recycle_bin × Option Nat :=
  let c := rb.claim 1
  if c.2 ≤ c.1._write_pos then
    let h := c.1.get_block c.2
    if h = 0 then (c.1, none) else (c.1.clear_block c.2, some h)
  else (c.1, none)

/-- What a caller that tests the result against `nullptr` sees: a call that returned no
value counts as a failed claim. -/
def claimed (r : Option Nat) : Nat := r.getD 0

/-- A step on a recycle bin in which a whole call runs without interruption. In the source
only `_read_pos.fetch_add` of a consumer call is atomic; `race_step` below splits the call. -/
inductive bin_step where
  | consumer_claim
  | check_status
  | produce
deriving DecidableEq, Repr

/-- Run one step: returns the heap, the bin and the block a successful claim returned
(`0` otherwise). -/
def bin_step.run (H : Heap) (rb : recycle_bin) : bin_step → Except Fault (Heap × recycle_bin × Nat)
  | .consumer_claim => .ok (H, (fetch_block_from_middle rb).1, claimed (fetch_block_from_middle rb).2)
  | .check_status => .ok (H, rb.check_status.1, 0)
  | .produce =>
    match rb.produce_block_to_ring_buffer H with
    | .error e => .error e
    | .ok (H1, rb1, _) => .ok (H1, rb1, 0)

/-- Run a sequence of steps, collecting the blocks returned by successful claims (latest
first). A fault ends the run. -/
def run_steps (H : Heap) (rb : recycle_bin) (got : List Nat) :
    List bin_step → Except Fault (Heap × recycle_bin × List Nat)
  | [] => .ok (H, rb, got)
  | s :: ss =>
    match s.run H rb with
    | .error e => .error e
    | .ok (H1, rb1, b) => run_steps H1 rb1 (if b = 0 then got else b :: got) ss

/-- Bin states reachable from `rb0` by steps that do not fault, every state on the way
satisfying `ok`. -/
inductive bin_reachable (ok : recycle_bin → Prop) (H0 : Heap) (rb0 : recycle_bin) :
    Heap → recycle_bin → Prop
  | init : ok rb0 → bin_reachable ok H0 rb0 H0 rb0
  | step (H : Heap) (rb : recycle_bin) (s : bin_step) (H1 : Heap) (rb1 : recycle_bin) (b : Nat) :
      bin_reachable ok H0 rb0 H rb → s.run H rb = .ok (H1, rb1, b) → ok rb1 →
      bin_reachable ok H0 rb0 H1 rb1

/-- The fault a call ended in, if any. -/
def fault_of {α : Type} : Except Fault α → Option Fault
  | .error e => some e
  | .ok _ => none

/-- The result of a call that did not fault. -/
def result_of {α : Type} : Except Fault α → Option α
  | .error _ => none
  | .ok a => some a

/-- Single ownership in a bin: the free list holds pairwise distinct blocks, the blocks
already returned to consumers (`got`) are pairwise distinct and not in the free list, every
block in a ring slot is in no other slot, not in the free list and not in `got`; and the
block `next` the collector holds in hand (if any) is in none of these places. -/
def owned_once (H : Heap) (rb : recycle_bin) (got : List Nat) (next : Nat) : Prop :=
  ∃ xs, is_list H.lnk rb._free_list xs ∧ xs.Nodup ∧ got.Nodup ∧
    (∀ b ∈ got, b ∉ xs) ∧
    (∀ i, rb._free_queue i ≠ 0 → rb._free_queue i ∉ xs ∧ rb._free_queue i ∉ got ∧
      ∀ j, rb._free_queue j = rb._free_queue i → j = i) ∧
    (next ≠ 0 → next ∉ xs ∧ next ∉ got ∧ ∀ i, rb._free_queue i ≠ next)

/-! ## bit_index.h -/

/-- The 64-bit occupancy word `_bits`. -/
structure bit_index where
  _bits : Nat
deriving DecidableEq, Repr

namespace bit_index

/-- Bit `pos` counted from the most significant bit of the 64-bit word: the mask
`1ll << (63 - pos)`. A shift count outside 0..63 is taken modulo 64. -/
def mask (pos : Nat) : Nat := 2 ^ (((63 : Int) - pos) % 64).toNat

/-- The builtin `__builtin_clzll` on a non-zero 64-bit word: the number of zero bits
above the highest set bit. -/
def clzll (x : Nat) : Nat :=
  ((List.range 64).find? (fun p => x / 2 ^ (63 - p) % 2 = 1)).getD 64

/-- The method `first_set_bit()`: `_bits == 0 ? 64 : LZERO(_bits)`. -/
def first_set_bit (b : bit_index) : Nat := if b._bits = 0 then 64 else clzll b._bits

/-- The method `get(pos)`. -/
def get (b : bit_index) (pos : Nat) : Bool := (b._bits &&& mask pos) != 0

/-- The method `set(pos)`: `assert(pos < 64); _bits |= 1ll << (63 - pos)`. -/
def set (b : bit_index) (pos : Nat) : Except Fault bit_index :=
  if pos < 64 then .ok { _bits := b._bits ||| mask pos } else .error Fault.assert_failed

/-- The method `clear(pos)`: `_bits &= ~(1ll << (63 - pos))`. -/
def clear (b : bit_index) (pos : Nat) : bit_index :=
  { _bits := b._bits &&& ((2 ^ 64 - 1) ^^^ mask pos) }

/-- The method `count()`: the population count. -/
def count (b : bit_index) : Nat := ((List.range 64).filter (fun p => b._bits / 2 ^ p % 2 = 1)).length

/-- The method `empty()`. -/
def empty (b : bit_index) : Bool := b._bits == 0

end bit_index

/-! ## page_map.h -/

abbrev POINTER_BITS_64 : Nat := 48
abbrev KLEAF_BITS : Nat := 15
abbrev BITS : Nat := POINTER_BITS_64 - SMALL_BIN_BITS - KLEAF_BITS
abbrev KROOT_BITS : Nat := BITS - KLEAF_BITS
abbrev KLEAF_LENGTH : Nat := 1 <<< KLEAF_BITS
abbrev KROOT_LENGTH : Nat := 1 <<< KROOT_BITS
/-- The macro `LEAF_SIZE`: `sizeof(bin_info) * KLEAF_LENGTH`, with `sizeof(bin_info) = 16`
(a `uint32_t`, padding, a `uint64_t`). -/
abbrev LEAF_SIZE : Nat := 16 * KLEAF_LENGTH
abbrev LEAF_ALLOC_NUM : Nat := 20
abbrev META_CHUNK_SIZE : Nat := LEAF_SIZE * LEAF_ALLOC_NUM

/-- The slab descriptor `bin_info { uint32_t size; bit_index bindex; }`. -/
structure bin_info where
  size : Nat
  bindex : bit_index
deriving DecidableEq, Repr

namespace bin_info

/-- The method `alloc(h, flag_full)`: returns the descriptor, `flag_full` and the cell
address. -/
def alloc (b : bin_info) (h : Nat) : Except Fault (bin_info × Bool × Nat) :=
  match b.bindex.set b.bindex.first_set_bit with
  | .error e => .error e
  | .ok bx =>
    if b.size = 0 then .error Fault.div_by_zero
    else .ok ({ b with bindex := bx }, bx.count == SMALL_BIN_SIZE / b.size,
      block_header.data h + b.bindex.first_set_bit * b.size)

/-- The method `free(pos, flag_empty)`: returns the descriptor and `flag_empty`. -/
def free (b : bin_info) (pos : Nat) : bin_info × Bool :=
  ({ b with bindex := b.bindex.clear pos }, (b.bindex.clear pos).empty)

end bin_info

/-- The page map: the root array of leaf pointers, and the `binfo` array of the leaf
stored at each address. The arrays are not bounds-checked. A leaf is `LEAF_SIZE` bytes at
the pointer given to `init`: the map is exact for leaves that lie at least that far apart. -/
structure pagemap where
  root : Nat → Nat
  leaf : Nat → Nat → bin_info

namespace pagemap

/-- The constructor: every root entry null. -/
def constructor : pagemap :=
  { root := fun _ => 0, leaf := fun _ _ => { size := 0, bindex := { _bits := 0 } } }

/-- Where the reference returned by `get(n)` points: `some (leaf, i2)` for the entry of a
leaf, `none` for the local sentinel `b`, which `get` returns when the leaf is missing or the
entry has size 0. -/
def get_ref (p : pagemap) (n : Nat) : Option (Nat × Nat) :=
  if p.root (n >>> KLEAF_BITS) = 0 then none
  else if (p.leaf (p.root (n >>> KLEAF_BITS)) (n &&& (KLEAF_LENGTH - 1))).size = 0 then none
  else some (p.root (n >>> KLEAF_BITS), n &&& (KLEAF_LENGTH - 1))

/-- The method `get(n)`: the descriptor the returned reference reads as. For the reference
to the local `b`, whose lifetime has ended, the read is not defined in C++; it is taken as
the value `b` had, size 0. -/
def get (p : pagemap) (n : Nat) : bin_info :=
  match p.get_ref n with
  | none => { size := 0, bindex := { _bits := 0 } }
  | some (l, i2) => p.leaf l i2

/-- Write `b` through a reference obtained from `get`: a write to the sentinel is lost. -/
def put_ref (p : pagemap) (r : Option (Nat × Nat)) (b : bin_info) : pagemap :=
  match r with
  | none => p
  | some (l, i2) =>
    { p with leaf := fun l' i' => if l' = l ∧ i' = i2 then b else p.leaf l' i' }

/-- The method `set(n, b)`: `root[i1]->binfo[i2] = b`. -/
def set (p : pagemap) (n : Nat) (b : bin_info) : Except Fault pagemap :=
  if p.root (n >>> KLEAF_BITS) = 0 then .error Fault.null_deref
  else .ok (p.put_ref (some (p.root (n >>> KLEAF_BITS), n &&& (KLEAF_LENGTH - 1))) b)

/-- The method `is_init(n)`. -/
def is_init (p : pagemap) (n : Nat) : Bool := p.root (n >>> KLEAF_BITS) != 0

/-- The method `init(n, h)`: zero the leaf at `h` and install it. -/
def init (p : pagemap) (n : Nat) (h : Nat) : Except Fault pagemap :=
  if h = 0 then .error Fault.null_deref
  else .ok
    { root := fun i => if i = n >>> KLEAF_BITS then h else p.root i,
      leaf := fun l i => if l = h then { size := 0, bindex := { _bits := 0 } } else p.leaf l i }

end pagemap

/-! ## size_map.h -/

abbrev kNumClasses : Nat := 78
abbrev kMaxSize : Nat := 256 * 1024
abbrev kAlignment : Nat := 8
abbrev kMaxSmallSize : Nat := 1024
abbrev kClassArraySize : Nat := ((kMaxSize + 127 + (120 <<< 7)) >>> 7) + 1

/-- The function `ClassIndex(s)`; `none` for `s > kMaxSize`, where control reaches the end
of the function without a `return`. -/
def ClassIndex (s : Nat) : Option Nat :=
  if s ≤ kMaxSmallSize then some ((s % 2 ^ 32 + 7) >>> 3)
  else if s ≤ kMaxSize then some ((s % 2 ^ 32 + 127 + (120 <<< 7)) >>> 7)
  else none

/-- The size map as the allocator reads it: the byte table `class_array_` and the column
`next_recycle_bin` of `kSizeClasses` (the table of `sizeclass.h`, which is not among the
sources, so both are parameters). -/
structure sizemap where
  class_array_ : Nat → Nat
  next_recycle_bin : Int → Int

namespace sizemap

/-- The method `get_sizeclass(size)`: `class_array_[ClassIndex(size)]`. -/
def get_sizeclass (sm : sizemap) (size : Nat) : Except Fault Nat :=
  match ClassIndex size with
  | none => .error Fault.segv
  | some i => .ok (sm.class_array_ i)

/-- The method `get_next_recycle_bin(bin)`. -/
def get_next_recycle_bin (sm : sizemap) (bin : Int) : Int := sm.next_recycle_bin bin

end sizemap

/-! ## thread.h: the page-map helpers of `garbage_collector` -/

/-- The function `get_pos(h, size)`:
`(ret & (1 << (SMALL_BIN_BITS + 1) - 1) - HEDER_SIZE) / size`. In C++ the binary `+` and
`-` bind tighter than `<<`, and `<<` tighter than `&`, so the mask is
`(1 << ((SMALL_BIN_BITS + 1) - 1)) - HEDER_SIZE`. -/
def get_pos (h : Nat) (size : Nat) : Except Fault Nat :=
  if size = 0 then .error Fault.div_by_zero
  else .ok ((h &&& ((1 <<< ((SMALL_BIN_BITS + 1) - 1)) - HEDER_SIZE)) / size)

/-- The function `get_number(h)`: `h >> SMALL_BIN_SIZE`. The shift count is 1016; the
shift is taken mathematically. -/
def get_number (h : Nat) : Nat := h >>> SMALL_BIN_SIZE

/-- The function `is_mapped(binfo)`: `binfo.size == 0`. -/
def is_mapped (binfo : bin_info) : Bool := binfo.size == 0

/-! ## os.h -/

/-- The value `::mmap` returns when it refuses a mapping: `(void *) -1`. -/
abbrev MAP_FAILED : Nat := 2 ^ 64 - 1

/-- The operating system as the allocator sees it: `script` lists what the coming calls of
`::mmap` return (`MAP_FAILED` for a refusal; an exhausted script refuses), `mapped` and
`unmapped` record the calls made. -/
structure os_state where
  script : List Nat
  mapped : List (Nat × Nat)
  unmapped : List (Nat × Nat)
deriving DecidableEq, Repr

namespace os

/-- The function `mmap_alloc(s)`: throws `std::bad_alloc` when `::mmap` returned null, and
returns every other value, `MAP_FAILED` included. -/
def mmap_alloc (o : os_state) (s : Nat) : Except Fault (os_state × Nat) :=
  match o.script with
  | [] => .ok (o, MAP_FAILED)
  | r :: rest =>
    if r = 0 then .error Fault.bad_alloc
    else if r = MAP_FAILED then .ok ({ o with script := rest }, r)
    else .ok ({ o with script := rest, mapped := (r, s) :: o.mapped }, r)

/-- The function `allocate_block_page(size)`: `init(size)` on what `mmap_alloc` returned;
on `MAP_FAILED` the header write hits unmapped memory. `init` takes an `int`. -/
def allocate_block_page (m : Mem) (o : os_state) (size : Nat) :
    Except Fault (Mem × os_state × Nat) :=
  match mmap_alloc o size with
  | .error e => .error e
  | .ok (o1, limit) =>
    if limit = MAP_FAILED then .error Fault.segv
    else .ok (block_header.init m limit (wrap32 size), o1, limit)

/-- The function `mmap_free(pos, s)`. -/
def mmap_free (o : os_state) (pos s : Nat) : os_state :=
  { o with unmapped := (pos, s) :: o.unmapped }

end os

/-! ## bin_allocator.h -/

/-- Write `v` into slot `i` of a cache array. The arrays are not bounds-checked. -/
def set_slot (c : Int → Nat) (i : Int) (v : Nat) : Int → Nat :=
  fun j => if j = i then v else c j

/-- The class `bin_allocator`: the first cache `_bin_cache`. -/
structure bin_allocator where
  _bin_cache : Int → Nat

namespace bin_allocator

/-- The method `constructor()`. -/
def constructor : bin_allocator := { _bin_cache := fun _ => 0 }

/-- The method `fetch_cache(bin)`. -/
def fetch_cache (c : Int → Nat) (bin : Int) : (Int → Nat) × Nat :=
  if c bin = 0 then (c, 0) else (set_slot c bin 0, c bin)

/-- The method `get_cache(bin)`. -/
def get_cache (c : Int → Nat) (bin : Int) : Nat := c bin

/-- The method `clear_cache(bin)`. -/
def clear_cache (c : Int → Nat) (bin : Int) : Int → Nat := set_slot c bin 0

/-- The method `store_cache(h, bin)`. -/
def store_cache (c : Int → Nat) (h : Nat) (bin : Int) : (Int → Nat) × Bool :=
  if c bin = 0 then (set_slot c bin h, true) else (c, false)

/-- The second claim of `fetch_block_from_front_and_middle` and what follows it. -/
def fetch_second (c : Int → Nat) (bin : Int) (rb : recycle_bin) (found : Bool) :
    (Int → Nat) × recycle_bin × Nat :=
  if claimed (fetch_block_from_middle rb).2 = 0 then
    if found then ((fetch_cache c bin).1, (fetch_block_from_middle rb).1, (fetch_cache c bin).2)
    else (c, (fetch_block_from_middle rb).1, 0)
  else (c, (fetch_block_from_middle rb).1, claimed (fetch_block_from_middle rb).2)

/-- The method `fetch_block_from_front_and_middle(bin, rbin)`. The source calls
`store(bin, ret)`, a name that does not exist; it is read as `store_cache(ret, bin)`. -/
def fetch_block_from_front_and_middle (c : Int → Nat) (bin : Int) (rb : recycle_bin) :
    (Int → Nat) × recycle_bin × Nat :=
  if (fetch_cache c bin).2 = 0 then
    if claimed (fetch_block_from_middle rb).2 = 0 then
      fetch_second (fetch_cache c bin).1 bin (fetch_block_from_middle rb).1 false
    else if (store_cache (fetch_cache c bin).1 (claimed (fetch_block_from_middle rb).2) bin).2
        = false then
      ((store_cache (fetch_cache c bin).1 (claimed (fetch_block_from_middle rb).2) bin).1,
        (fetch_block_from_middle rb).1, claimed (fetch_block_from_middle rb).2)
    else
      fetch_second (store_cache (fetch_cache c bin).1 (claimed (fetch_block_from_middle rb).2) bin).1
        bin (fetch_block_from_middle rb).1 true
  else ((fetch_cache c bin).1, rb, (fetch_cache c bin).2)

end bin_allocator

/-- The class `fixed_bin_allocator`: the first cache and the head of the second cache
`_block_list`. -/
structure fixed_bin_allocator where
  _bin_cache : Int → Nat
  _block_list : Nat

namespace fixed_bin_allocator

/-- The method `constructor()`. -/
def constructor : fixed_bin_allocator := { _bin_cache := fun _ => 0, _block_list := 0 }

end fixed_bin_allocator

/-- The method `fixed_block_list<pop_size>::pop()`: pop the head and, when it is larger
than `pop_size`, split it and push the remainder back. Returns heap, new head, block. -/
def fixed_block_list_pop (pop_size : Nat) (H : Heap) (head : Nat) :
    Except Fault (Heap × Nat × Nat) :=
  if (block_list.pop H.lnk head).2.2 ≠ 0 ∧
      (H.hdr (block_list.pop H.lnk head).2.2).size > pop_size then
    match block_list.push (block_list.pop H.lnk head).1 (block_list.pop H.lnk head).2.1
        (block_header.split_after H.hdr (block_list.pop H.lnk head).2.2 (wrap32 pop_size)).2 with
    | .error e => .error e
    | .ok (lk, hd) =>
      .ok ({ hdr := (block_header.split_after H.hdr (block_list.pop H.lnk head).2.2
                (wrap32 pop_size)).1, lnk := lk }, hd, (block_list.pop H.lnk head).2.2)
  else .ok ({ H with lnk := (block_list.pop H.lnk head).1 }, (block_list.pop H.lnk head).2.1,
    (block_list.pop H.lnk head).2.2)

/-- The first loop of `fetch_block_from_second_cache_above`: `n` claims, each block claimed
is stored in the list. The source calls `fetch_block_from_middle()` without the bin and
`store_cache(h)` without a slot; they are read as `fetch_block_from_middle(rbin)` and
`store_list(h)`. Returns links, list head, bin and `found`. -/
def claim_into_list (lk : Links) (head : Nat) (rb : recycle_bin) (found : Bool) :
    Nat → Except Fault (Links × Nat × recycle_bin × Bool)
  | 0 => .ok (lk, head, rb, found)
  | n + 1 =>
    if claimed (fetch_block_from_middle rb).2 = 0 then
      claim_into_list lk head (fetch_block_from_middle rb).1 found n
    else
      match block_list.push lk head (claimed (fetch_block_from_middle rb).2) with
      | .error e => .error e
      | .ok (lk1, head1) => claim_into_list lk1 head1 (fetch_block_from_middle rb).1 true n

/-- The second loop of `fetch_block_from_second_cache_above`: `n` times
`store_list(tail); tail = tail->split_after(pop_size)`. Returns heap, list head, `tail`. -/
def split_into_list (pop_size : Nat) (H : Heap) (head : Nat) (tail : Nat) :
    Nat → Except Fault (Heap × Nat × Nat)
  | 0 => .ok (H, head, tail)
  | n + 1 =>
    match block_list.push H.lnk head tail with
    | .error e => .error e
    | .ok (lk1, head1) =>
      split_into_list pop_size
        { hdr := (block_header.split_after H.hdr tail (wrap32 pop_size)).1, lnk := lk1 } head1
        (block_header.split_after H.hdr tail (wrap32 pop_size)).2 n

/-- The method `fixed_bin_allocator<_, pop_size>::fetch_block_from_second_cache_above`.
The release at its end names `_garbage_collect`; it is read as the hand-off passed in.
Returns heap, os, hand-off, allocator, bin and the block. -/
def fetch_block_from_second_cache_above (pop_size : Nat) (H : Heap) (o : os_state)
    (g : garbage_collect) (fa : fixed_bin_allocator) (rb : recycle_bin)
    (flag chunk_size list_cache_num : Nat) :
    Except Fault (Heap × os_state × garbage_collect × fixed_bin_allocator × recycle_bin × Nat) :=
  match fixed_block_list_pop pop_size H fa._block_list with
  | .error e => .error e
  | .ok (H1, head1, h) =>
    if h ≠ 0 then .ok (H1, o, g, { fa with _block_list := head1 }, rb, h)
    else
      match claim_into_list H1.lnk head1 rb false (list_cache_num - 1) with
      | .error e => .error e
      | .ok (lk2, head2, rb2, found) =>
        if claimed (fetch_block_from_middle rb2).2 ≠ 0 then
          .ok ({ H1 with lnk := lk2 }, o, g, { fa with _block_list := head2 },
            (fetch_block_from_middle rb2).1, claimed (fetch_block_from_middle rb2).2)
        else if found then
          match fixed_block_list_pop pop_size { H1 with lnk := lk2 } head2 with
          | .error e => .error e
          | .ok (H3, head3, h3) =>
            .ok (H3, o, g, { fa with _block_list := head3 }, (fetch_block_from_middle rb2).1, h3)
        else
          match os.allocate_block_page H1.hdr o chunk_size with
          | .error e => .error e
          | .ok (m4, o4, new_page) =>
            match split_into_list pop_size
                { hdr := (block_header.split_after (block_header.set_state m4 new_page flag)
                    new_page (wrap32 SMALL_BIN_SIZE)).1, lnk := lk2 } head2
                (block_header.split_after (block_header.set_state m4 new_page flag)
                    new_page (wrap32 SMALL_BIN_SIZE)).2 (list_cache_num - 1) with
            | .error e => .error e
            | .ok (H5, head5, tail5) =>
              match garbage_collect.release H5 g tail5 with
              | .error e => .error e
              | .ok (H6, g6) =>
                .ok (H6, o4, g6, { fa with _block_list := head5 },
                  (fetch_block_from_middle rb2).1, new_page)

/-! ## thread.h -/

/-- A recycle bin of the collector: `_algin_bin`, `_meta_bin` or `_bins[i]`. -/
inductive bin_ref where
  | align
  | meta
  | bins (i : Int)
deriving DecidableEq, Repr

/-- The class `garbage_collector`: its recycle bins and the page map (the size map is a
parameter of the functions that use it). -/
structure garbage_collector where
  _bins : Int → recycle_bin
  _algin_bin : recycle_bin
  _meta_bin : recycle_bin
  pmap : pagemap

namespace garbage_collector

/-- The collector at start. -/
def constructor : garbage_collector :=
  { _bins := fun _ => recycle_bin.constructor, _algin_bin := recycle_bin.constructor,
    _meta_bin := recycle_bin.constructor, pmap := pagemap.constructor }

/-- Read the bin a reference names. -/
def bin (gc : garbage_collector) : bin_ref → recycle_bin
  | .align => gc._algin_bin
  | .meta => gc._meta_bin
  | .bins i => gc._bins i

/-- Write the bin a reference names. -/
def set_bin (gc : garbage_collector) (r : bin_ref) (rb : recycle_bin) : garbage_collector :=
  match r with
  | .align => { gc with _algin_bin := rb }
  | .meta => { gc with _meta_bin := rb }
  | .bins i => { gc with _bins := fun j => if j = i then rb else gc._bins j }

end garbage_collector

/-- The class `thread_allocator`: the hand-off and the three bin allocators. -/
structure thread_allocator where
  _garbage_collect : garbage_collect
  _large_bin_allocator : bin_allocator
  _small_bin_allocator : fixed_bin_allocator
  _meta_bin_allocator : fixed_bin_allocator

/-- The state one thread's `alloc` and `free` work on: memory, the operating system, the
collector's bins and page map, and the thread's arena. -/
structure State where
  heap : Heap
  os : os_state
  gc : garbage_collector
  ta : thread_allocator

namespace State

/-- Replace the header memory. -/
def set_hdr (st : State) (m : Mem) : State := { st with heap := { st.heap with hdr := m } }

/-- Replace the operating-system state. -/
def set_os (st : State) (o : os_state) : State := { st with os := o }

/-- Replace one recycle bin of the collector. -/
def set_bin (st : State) (r : bin_ref) (rb : recycle_bin) : State :=
  { st with gc := st.gc.set_bin r rb }

/-- Replace the page map. -/
def set_pmap (st : State) (p : pagemap) : State := { st with gc := { st.gc with pmap := p } }

/-- Replace the hand-off. -/
def set_hand_off (st : State) (g : garbage_collect) : State :=
  { st with ta := { st.ta with _garbage_collect := g } }

/-- Replace the first cache of the variable bins. -/
def set_large_cache (st : State) (c : Int → Nat) : State :=
  { st with ta := { st.ta with _large_bin_allocator := { _bin_cache := c } } }

/-- Replace the first cache of the fixed bins. -/
def set_small_cache (st : State) (c : Int → Nat) : State :=
  { st with ta := { st.ta with
      _small_bin_allocator := { st.ta._small_bin_allocator with _bin_cache := c } } }

/-- Replace the fixed-bin allocator. -/
def set_small (st : State) (fa : fixed_bin_allocator) : State :=
  { st with ta := { st.ta with _small_bin_allocator := fa } }

/-- Replace the meta fixed-bin allocator. -/
def set_meta (st : State) (fa : fixed_bin_allocator) : State :=
  { st with ta := { st.ta with _meta_bin_allocator := fa } }

end State

/-- A fresh process: zero memory, collector and arena as constructed, and the addresses
`script` for the coming mappings. -/
def fresh_state (script : List Nat) : State :=
  { heap := zero_heap,
    os := { script := script, mapped := [], unmapped := [] },
    gc := garbage_collector.constructor,
    ta := { _garbage_collect := garbage_collect.constructor,
            _large_bin_allocator := bin_allocator.constructor,
            _small_bin_allocator := fixed_bin_allocator.constructor,
            _meta_bin_allocator := fixed_bin_allocator.constructor } }

/-- The call `_garbage_collect.release(h)` in the state. -/
def release (st : State) (h : Nat) : Except Fault State :=
  match garbage_collect.release st.heap st.ta._garbage_collect h with
  | .error e => .error e
  | .ok (H, g) => .ok ({ st with heap := H }.set_hand_off g)

/-- The method `garbage_collector::find_recycle_bin_for(h)`: returns the header memory
(the flag queries write it) and the bin chosen. -/
def find_recycle_bin_for (sm : sizemap) (m : Mem) (h : Nat) : Except Fault (Mem × bin_ref) :=
  if (block_header.is_aligned m h).2 then .ok ((block_header.is_aligned m h).1, bin_ref.align)
  else if (block_header.is_meta (block_header.is_aligned m h).1 h).2 then
    .ok ((block_header.is_meta (block_header.is_aligned m h).1 h).1, bin_ref.meta)
  else
    match sm.get_sizeclass
        (((block_header.is_meta (block_header.is_aligned m h).1 h).1 h).size.toNat) with
    | .error e => .error e
    | .ok c => .ok ((block_header.is_meta (block_header.is_aligned m h).1 h).1, bin_ref.bins c)

/-- The step of `merge_block` on one neighbour `nb` of `h`: when `nb` answers
`is_mergable()`, take it out of the free list of its bin and call `merge` on `h`.
A null neighbour is dereferenced. Returns the state and the head `h` after the step. -/
def merge_neighbour (sm : sizemap) (st : State) (h nb : Nat)
    (merge : Mem → Nat → Mem × Nat) : Except Fault (State × Nat) :=
  if nb = 0 then .error Fault.null_deref
  else if (block_header.is_mergable st.heap.hdr nb).2 then
    match find_recycle_bin_for sm (block_header.is_mergable st.heap.hdr nb).1 nb with
    | .error e => .error e
    | .ok (m1, r) =>
      match (st.gc.bin r).clear_cached_block { st.heap with hdr := m1 } nb with
      | .error e => .error e
      | .ok (H2, rb2) =>
        .ok (({ st with heap := H2 }.set_hdr (merge H2.hdr h).1).set_bin r rb2,
          (merge H2.hdr h).2)
  else .ok (st.set_hdr (block_header.is_mergable st.heap.hdr nb).1, h)

/-- The method `garbage_collector::merge_block(h)`: first the successor, then the
predecessor of the block that results. -/
def merge_block (sm : sizemap) (st : State) (h : Nat) : Except Fault (State × Nat) :=
  match merge_neighbour sm st h (block_header.next st.heap.hdr h) block_header.merge_next with
  | .error e => .error e
  | .ok (st1, h1) =>
    merge_neighbour sm st1 h1 (block_header.prev st1.heap.hdr h1) block_header.merge_prev

/-- The body of the drain loop of `garbage_collector::run` for one block `cur` of a
hand-off list: tag it MERGEABLE, `merge_block(cur)`, then
`find_recycle_bin_for(cur).cache_block(cur)`. -/
def collect_block (sm : sizemap) (st : State) (cur : Nat) : Except Fault State :=
  match merge_block sm
      (st.set_hdr (block_header.set_state st.heap.hdr cur block_header.mergable)) cur with
  | .error e => .error e
  | .ok (st1, _) =>
    match find_recycle_bin_for sm st1.heap.hdr cur with
    | .error e => .error e
    | .ok (m2, r) =>
      match (st1.gc.bin r).cache_block { st1.heap with hdr := m2 } cur with
      | .error e => .error e
      | .ok (H3, rb3) => .ok ({ st1 with heap := H3 }.set_bin r rb3)

/-- The method `thread_allocator::alloc_small(bin, h, binfo)`, with `binfo` the reference
`gc.get_bin_info(h)` returns. -/
def alloc_small (st : State) (bin : Int) (h : Nat) : Except Fault (State × Nat) :=
  match (st.gc.pmap.get (get_number h)).alloc h with
  | .error e => .error e
  | .ok (b1, flag_full, p) =>
    .ok (((st.set_pmap (st.gc.pmap.put_ref (st.gc.pmap.get_ref (get_number h)) b1)).set_small_cache
        (if flag_full then bin_allocator.clear_cache st.ta._small_bin_allocator._bin_cache bin
          else st.ta._small_bin_allocator._bin_cache)), p)

/-- The method `thread_allocator::free_small(c, binfo)`, with `binfo` the reference
`gc.get_bin_info(c)` returns. -/
def free_small (st : State) (c : Nat) : Except Fault State :=
  match get_pos c (st.gc.pmap.get (get_number c)).size with
  | .error e => .error e
  | .ok pos =>
    if ((st.gc.pmap.get (get_number c)).free pos).2 then
      release (st.set_pmap (st.gc.pmap.put_ref (st.gc.pmap.get_ref (get_number c))
        ((st.gc.pmap.get (get_number c)).free pos).1)) c
    else
      .ok (st.set_pmap (st.gc.pmap.put_ref (st.gc.pmap.get_ref (get_number c))
        ((st.gc.pmap.get (get_number c)).free pos).1))

/-- The header address `c - HEDER_SIZE` of a data pointer, in 64-bit pointer arithmetic. -/
def header_of (c : Nat) : Nat := (c + 2 ^ 64 - HEDER_SIZE) % 2 ^ 64

/-- The second half of `thread_allocator::free(c)`: the block path and the unmap path,
on the header at `c - HEDER_SIZE`. -/
def free_block (st : State) (c : Nat) : Except Fault State :=
  if (st.heap.hdr (header_of c)).size ≤ (LARGE_BLOCK : Int) then release st (header_of c)
  else
    .ok (st.set_os (os.mmap_free st.os (header_of c)
      ((st.heap.hdr (header_of c)).size + HEDER_SIZE).toNat))

/-- The method `thread_allocator::free(c)`: `free_small` when `is_mapped` answers true,
and then, with no `return` in between, the block path. -/
def free (st : State) (c : Nat) : Except Fault State :=
  if is_mapped (st.gc.pmap.get (get_number c)) then
    match free_small st c with
    | .error e => .error e
    | .ok st1 => free_block st1 c
  else free_block st c

/-- The state after a call of `fetch_block_from_second_cache_above` on the fixed bins. -/
def after_small_fetch (st : State)
    (r : Heap × os_state × garbage_collect × fixed_bin_allocator × recycle_bin × Nat) : State :=
  ((({ st with heap := r.1, os := r.2.1 }.set_hand_off r.2.2.1).set_small r.2.2.2.1).set_bin
    bin_ref.align r.2.2.2.2.1)

/-- The state after a call of `fetch_block_from_second_cache_above` on the meta bin. -/
def after_meta_fetch (st : State)
    (r : Heap × os_state × garbage_collect × fixed_bin_allocator × recycle_bin × Nat) : State :=
  ((({ st with heap := r.1, os := r.2.1 }.set_hand_off r.2.2.1).set_meta r.2.2.2.1).set_bin
    bin_ref.meta r.2.2.2.2.1)

/-- The slab path of `alloc`, for `s ≤ SMALL_BLOCK`. -/
def alloc_slab (sm : sizemap) (st : State) (s : Nat) : Except Fault (State × Nat) :=
  match sm.get_sizeclass s with
  | .error e => .error e
  | .ok bin =>
    if bin_allocator.get_cache st.ta._small_bin_allocator._bin_cache bin ≠ 0 then
      alloc_small st bin (bin_allocator.get_cache st.ta._small_bin_allocator._bin_cache bin)
    else
      match fetch_block_from_second_cache_above SMALL_BIN_SIZE st.heap st.os
          st.ta._garbage_collect st.ta._small_bin_allocator st.gc._algin_bin
          block_header.alignblock ALIGN_CHUNK_SIZE LIST_CACHE_NUM with
      | .error e => .error e
      | .ok r1 =>
        if (after_small_fetch st r1).gc.pmap.is_init (get_number r1.2.2.2.2.2) then
          alloc_small (after_small_fetch st r1) bin r1.2.2.2.2.2
        else
          match fetch_block_from_second_cache_above LEAF_SIZE (after_small_fetch st r1).heap
              (after_small_fetch st r1).os (after_small_fetch st r1).ta._garbage_collect
              (after_small_fetch st r1).ta._meta_bin_allocator
              (after_small_fetch st r1).gc._meta_bin
              block_header.metablock META_CHUNK_SIZE (LIST_CACHE_NUM / 2) with
          | .error e => .error e
          | .ok r2 =>
            match (after_meta_fetch (after_small_fetch st r1) r2).gc.pmap.init
                (get_number r1.2.2.2.2.2) r2.2.2.2.2.2 with
            | .error e => .error e
            | .ok pm =>
              alloc_small ((after_meta_fetch (after_small_fetch st r1) r2).set_pmap pm) bin
                r1.2.2.2.2.2

/-- What `alloc` does with a block `h` found in bin `bin`: `split_after(s)`, then
`if (bin != min_bin && !store_cache(h, bin)) release(tail)`, and return `h->data()`. -/
def alloc_hit (st : State) (s : Nat) (min_bin bin : Int) (h : Nat) : Except Fault (State × Nat) :=
  if bin ≠ min_bin ∧
      (bin_allocator.store_cache st.ta._large_bin_allocator._bin_cache h bin).2 = false then
    match release (st.set_hdr (block_header.split_after st.heap.hdr h (wrap32 s)).1)
        (block_header.split_after st.heap.hdr h (wrap32 s)).2 with
    | .error e => .error e
    | .ok st1 => .ok (st1, block_header.data h)
  else
    .ok ((st.set_hdr (block_header.split_after st.heap.hdr h (wrap32 s)).1).set_large_cache
        (if bin ≠ min_bin
          then (bin_allocator.store_cache st.ta._large_bin_allocator._bin_cache h bin).1
          else st.ta._large_bin_allocator._bin_cache), block_header.data h)

/-- The state after `fetch_block_from_front_and_middle(bin, ...)` on the variable bins. -/
def after_fetch (st : State) (bin : Int) : State :=
  (st.set_bin (bin_ref.bins bin)
    (bin_allocator.fetch_block_from_front_and_middle st.ta._large_bin_allocator._bin_cache
      bin (st.gc._bins bin)).2.1).set_large_cache
    (bin_allocator.fetch_block_from_front_and_middle st.ta._large_bin_allocator._bin_cache
      bin (st.gc._bins bin)).1

/-- The loop `for (bin = min_bin; bin <= NUM_BINS; bin += gc.get_next_recycle_bin(bin))`
of `alloc`, with fuel. The call passes `gc` where a recycle bin is expected; the bin of
`bin` is read as `_bins[bin]`. Returns `some p` when the loop body returned `p`, `none`
when the loop ran out of bins. -/
def alloc_bins (sm : sizemap) (s : Nat) (min_bin : Int) :
    Nat → State → Int → Except Fault (State × Option Nat)
  | 0, _, _ => .error Fault.no_fuel
  | fuel + 1, st, bin =>
    if bin ≤ (NUM_BINS : Int) then
      if (bin_allocator.fetch_block_from_front_and_middle st.ta._large_bin_allocator._bin_cache
          bin (st.gc._bins bin)).2.2 = 0 then
        alloc_bins sm s min_bin fuel (after_fetch st bin)
          (wrap32 (bin + sm.get_next_recycle_bin bin))
      else
        match alloc_hit (after_fetch st bin) s min_bin bin
            (bin_allocator.fetch_block_from_front_and_middle
              st.ta._large_bin_allocator._bin_cache bin (st.gc._bins bin)).2.2 with
        | .error e => .error e
        | .ok (st1, p) => .ok (st1, some p)
    else .ok (st, none)

/-- The end of the variable-bin path of `alloc`, after a total miss: map a page of
`CHUNK_SIZE`, `split_after(s)`, and cache the tail under `get_size_class(tail->size())` or
release it. -/
def alloc_fresh_page (sm : sizemap) (st : State) (s : Nat) : Except Fault (State × Nat) :=
  match os.allocate_block_page st.heap.hdr st.os CHUNK_SIZE with
  | .error e => .error e
  | .ok (m1, o1, new_page) =>
    if (block_header.split_after m1 new_page (wrap32 s)).2 = 0 then
      .ok ((st.set_hdr (block_header.split_after m1 new_page (wrap32 s)).1).set_os o1,
        block_header.data new_page)
    else
      match sm.get_sizeclass
          (((block_header.split_after m1 new_page (wrap32 s)).1
            (block_header.split_after m1 new_page (wrap32 s)).2).size.toNat) with
      | .error e => .error e
      | .ok c =>
        if (bin_allocator.store_cache st.ta._large_bin_allocator._bin_cache
            (block_header.split_after m1 new_page (wrap32 s)).2 c).2 = false then
          match release ((st.set_hdr (block_header.split_after m1 new_page (wrap32 s)).1).set_os o1)
              (block_header.split_after m1 new_page (wrap32 s)).2 with
          | .error e => .error e
          | .ok st1 => .ok (st1, block_header.data new_page)
        else
          .ok (((st.set_hdr (block_header.split_after m1 new_page (wrap32 s)).1).set_os
              o1).set_large_cache
              (bin_allocator.store_cache st.ta._large_bin_allocator._bin_cache
                (block_header.split_after m1 new_page (wrap32 s)).2 c).1,
            block_header.data new_page)

/-- The variable-bin path of `alloc`, for `SMALL_BLOCK < s` and `s + HEDER_SIZE <
LARGE_BLOCK`: `min_bin = get_size_class(s + HEDER_SIZE) - NUM_SMALL_BINS`. -/
def alloc_variable (sm : sizemap) (fuel : Nat) (st : State) (s : Nat) :
    Except Fault (State × Nat) :=
  match sm.get_sizeclass ((s + HEDER_SIZE) % 2 ^ 64) with
  | .error e => .error e
  | .ok c =>
    match alloc_bins sm s (wrap32 ((c : Int) - NUM_SMALL_BINS)) fuel st
        (wrap32 ((c : Int) - NUM_SMALL_BINS)) with
    | .error e => .error e
    | .ok (st1, some p) => .ok (st1, p)
    | .ok (st1, none) => alloc_fresh_page sm st1 s

/-- The huge path of `alloc`: map `s + HEDER_SIZE` bytes, mark the block BIG. -/
def alloc_huge (st : State) (s : Nat) : Except Fault (State × Nat) :=
  match os.allocate_block_page st.heap.hdr st.os ((s + HEDER_SIZE) % 2 ^ 64) with
  | .error e => .error e
  | .ok (m1, o1, new_page) =>
    .ok ((st.set_hdr (block_header.set_state m1 new_page block_header.bigdata)).set_os o1,
      block_header.data new_page)

/-- The request after `if (s < MIN_BLOCK_SIZE) s = MIN_BLOCK_SIZE`. -/
def clamp_request (s : Nat) : Nat := if s < MIN_BLOCK_SIZE then MIN_BLOCK_SIZE else s

/-- The method `thread_allocator::alloc(s)` for a `size_t` request `s`. `fuel` bounds the
iterations of the bin loop. -/
def alloc (sm : sizemap) (fuel : Nat) (st : State) (s : Nat) : Except Fault (State × Nat) :=
  if s = 0 then .ok (st, 0)
  else if clamp_request s ≤ SMALL_BLOCK then alloc_slab sm st (clamp_request s)
  else if (clamp_request s + HEDER_SIZE) % 2 ^ 64 < LARGE_BLOCK then
    alloc_variable sm fuel st (clamp_request s)
  else alloc_huge st (clamp_request s)

/-- The function `gc_free(s)` of malloc.cpp. -/
def gc_free (st : State) (s : Nat) : Except Fault State := free st s

/-- The function `gc_malloc(s)` of malloc.cpp: the `int` argument converts to `size_t`. -/
def gc_malloc (sm : sizemap) (fuel : Nat) (st : State) (s : Int) : Except Fault (State × Nat) :=
  alloc sm fuel st (s % 2 ^ 64).toNat

/-- Modelled from the spec: `kSizeClasses` (sizeclass.h) is not among the sources. The class
of a size in an instance of the table the spec describes: classes 1 to 21 hold the sizes up
to `SMALL_BLOCK` in steps of 16 bytes, classes 22 to 77 the sizes up to `kMaxSize`. -/
def sample_class (s : Nat) : Nat :=
  if s ≤ SMALL_BLOCK then (s + 15) / 16 else min 77 (22 + (s - 337) / 4760)

/-- Modelled from the spec: `kSizeClasses` (sizeclass.h) is not among the sources. A size
map for running the code: `class_array_` filled from `sample_class` (entry `i` is the class
of the largest size with `ClassIndex` `i`), and a step of 1 to the next recycle bin. -/
def sample_sizemap : sizemap :=
  { class_array_ := fun i => sample_class (if i ≤ 128 then 8 * i else 128 * (i - 120)),
    next_recycle_bin := fun _ => 1 }

/-- The pointer a call returned; `none` when it faulted. -/
def returned (r : Except Fault (State × Nat)) : Option Nat := (result_of r).map (fun x => x.2)

/-- The state a call left; a fault leaves none. -/
def state_after (r : Except Fault (State × Nat)) : Option State :=
  (result_of r).map (fun x => x.1)

/-! ## States for the runs on the arena -/

/-- A state with a slab descriptor: the leaf at 8192 is installed for key 0 and its entry 0
has cell size 16 and cell 0 live; the slab header at 1024 has body 1016; `_gc_on_deck`
points at the block 5000. -/
def slab_state : State :=
  { heap := { hdr := block_header.init zero_mem 1024 1024, lnk := zero_links },
    os := { script := [], mapped := [], unmapped := [] },
    gc := { garbage_collector.constructor with
      pmap := { root := fun i => if i = 0 then 8192 else 0,
                leaf := fun l i => if l = 8192 ∧ i = 0
                  then { size := 16, bindex := { _bits := 2 ^ 63 } }
                  else { size := 0, bindex := { _bits := 0 } } } },
    ta := { _garbage_collect := { _gc_at_bat := 0, _gc_on_deck := 5000 },
            _large_bin_allocator := bin_allocator.constructor,
            _small_bin_allocator := fixed_bin_allocator.constructor,
            _meta_bin_allocator := fixed_bin_allocator.constructor } }

/-- A page of 128 bytes at 4096 cut into four blocks with bodies of 24 bytes: headers at
4096, 4128, 4160 and the tail at 4192; no flag set, every bin and cache empty. -/
def four_block_page : State :=
  (fresh_state []).set_hdr
    (block_header.split_after
      (block_header.split_after
        (block_header.split_after (block_header.init zero_mem 4096 128) 4096 24).1
        4128 24).1
      4160 24).1

/-! ## Runs of a slab descriptor -/

/-- One call on a slab descriptor: `alloc(h, flag_full)` or `free(pos, flag_empty)`. -/
inductive slab_op where
  | alloc (h : Nat)
  | free (pos : Nat)
deriving DecidableEq, Repr

/-- Whether the call is a `free`. -/
def slab_op.is_free : slab_op → Bool
  | .alloc _ => false
  | .free _ => true

/-- The innermost loop of `init_class_array`, at most `fuel` rounds from `s`:
`for (int s = next_size; s <= max_size_in_class; s += kAlignment)
class_array_[ClassIndex(s)] = c`. The `int s` converts to `size_t` for `ClassIndex`, which
has no `return` above `kMaxSize`. The entries are `unsigned char`. -/
def fill_class (c : Nat) (max_size_in_class : Int) :
    Nat → Int → (Nat → Nat) → Except Fault (Nat → Nat)
  | 0, s, class_array_ => if s ≤ max_size_in_class then .error Fault.no_fuel else .ok class_array_
  | fuel + 1, s, class_array_ =>
    if s ≤ max_size_in_class then
      match ClassIndex (s % 2 ^ 64).toNat with
      | none => .error Fault.segv
      | some i =>
        fill_class c max_size_in_class fuel (wrap32 (s + kAlignment))
          (fun j => if j = i then c % 256 else class_array_ j)
    else .ok class_array_

/-- The loop `for (int c = 1; c < kNumClasses; c++)` of `init_class_array`, `n` classes
from `c` on: fill the entries of class `c` from `next_size` to `class_to_size_[c]`, then
`next_size = max_size_in_class + kAlignment` and `break` when it exceeds `kMaxSize` (the
comparison is made in `size_t`). -/
def fill_classes (class_to_size_ : Nat → Nat) :
    Nat → Nat → Int → (Nat → Nat) → Except Fault (Nat → Nat)
  | 0, _, _, class_array_ => .ok class_array_
  | n + 1, c, next_size, class_array_ =>
    match fill_class c (wrap32 (class_to_size_ c)) (kMaxSize / kAlignment + 2) next_size
        class_array_ with
    | .error e => .error e
    | .ok arr =>
      if ((wrap32 (wrap32 (class_to_size_ c) + kAlignment)) % 2 ^ 64).toNat > kMaxSize then
        .ok arr
      else fill_classes class_to_size_ n (c + 1)
        (wrap32 (wrap32 (class_to_size_ c) + kAlignment)) arr

/-- The loop `for (int x = 0; x < kNumClasses; x++)` of `init_class_array`, `n` rounds from
`x` on: `class_to_size_[x] = kSizeClasses[kNumClasses].size` (the value `past_end`), then
the loop over the classes. -/
def init_rounds (past_end : Nat) :
    Nat → Nat → (Nat → Nat) → (Nat → Nat) → Except Fault (Nat → Nat)
  | 0, _, _, class_array_ => .ok class_array_
  | n + 1, x, class_to_size_, class_array_ =>
    match fill_classes (fun i => if i = x then past_end % 2 ^ 32 else class_to_size_ i)
        (kNumClasses - 1) 1 0 class_array_ with
    | .error e => .error e
    | .ok arr =>
      init_rounds past_end n (x + 1)
        (fun i => if i = x then past_end % 2 ^ 32 else class_to_size_ i) arr

/-- The method `sizemap::init_class_array()`. `kSizeClasses_size` is the column `size` of
the table `kSizeClasses` (index `kNumClasses` is the element after the last class),
`class_to_size_` is what the local array holds when the function is entered (it is not
initialised), `class_array_` the member before the call (zero: static storage). -/
def init_class_array (kSizeClasses_size : Nat → Nat) (class_to_size_ : Nat → Nat)
    (class_array_ : Nat → Nat) : Except Fault (Nat → Nat) :=
  init_rounds (kSizeClasses_size kNumClasses) kNumClasses 0 class_to_size_ class_array_

/-- The size map after construction from the table: `class_array_` as `init_class_array`
leaves it. -/
def sizemap.constructor (kSizeClasses_size : Nat → Nat) (next_recycle_bin : Int → Int)
    (class_to_size_ : Nat → Nat) : Except Fault sizemap :=
  match init_class_array kSizeClasses_size class_to_size_ (fun _ => 0) with
  | .error e => .error e
  | .ok arr => .ok { class_array_ := arr, next_recycle_bin := next_recycle_bin }

/-- Modelled from the spec: `kSizeClasses` (sizeclass.h) is not among the sources. A table
of the shape the size map expects: class `c` below 77 has max size `8 c`, class 77 has
`kMaxSize`; what follows the table in memory is `past_end`. -/
def sample_kSizeClasses (past_end : Nat) (c : Nat) : Nat :=
  if c < 77 then 8 * c else if c = 77 then kMaxSize else past_end

/-- Whether the table has the shape the size map expects: max sizes strictly increasing,
multiples of 8 up to 1024 and of 128 above, the last one `kMaxSize`. -/
def table_ok (t : Nat → Nat) : Bool :=
  (List.range (kNumClasses - 1)).all (fun c => t c < t (c + 1)) &&
  (List.range kNumClasses).all
    (fun c => if t c ≤ kMaxSmallSize then t c % 8 = 0 else t c % 128 = 0) &&
  t (kNumClasses - 1) = kMaxSize

/-- The class the specification asks for: the smallest class `c ≥ 1` whose max size is at
least `s`. -/
def spec_class_of (t : Nat → Nat) (s : Nat) : Option Nat :=
  (List.range kNumClasses).find? (fun c => 1 ≤ c ∧ s ≤ t c)

/-- The index the specification gives: `ceil(s / 8)` up to 1024 and
`(s + 127 + 15360) div 128` above. -/
def spec_ClassIndex (s : Nat) : Nat :=
  if s ≤ 1024 then (s + 7) / 8 else (s + 127 + 15360) / 128

/-! ## Runs of a recycle bin with a filled free list, and calls that interleave -/

/-- Link memory holding one free list: the blocks `base + 32 i` for `i < n`, linked in
that order, as `push` leaves them when they are pushed from the last to the first. -/
def list_of_blocks (base n : Nat) : Links := fun a =>
  if base ≤ a ∧ a < base + 32 * n ∧ (a - base) % 32 = 0 then
    { next := if a + 32 < base + 32 * n then a + 32 else 0,
      prev := if a = base then 0 else a - 32 }
  else { next := 0, prev := 0 }

/-- The local variables of one call of `fetch_block_from_middle` in flight: `claim_pos`
and the block `h` read from the ring (null before the read). -/
structure claim_call where
  claim_pos : Int
  h : Nat
deriving DecidableEq, Repr

/-- The first statement of `fetch_block_from_middle`: `claim_pos = rb.claim(1)`, the one
atomic operation of the call. -/
def fetch_claim (rb : recycle_bin) : recycle_bin × claim_call :=
  ((rb.claim 1).1, { claim_pos := (rb.claim 1).2, h := 0 })

/-- The reads of `fetch_block_from_middle`:
`if (claim_pos <= rb._write_pos) h = rb.get_block(claim_pos)`. -/
def fetch_read (rb : recycle_bin) (c : claim_call) : claim_call :=
  if c.claim_pos ≤ rb._write_pos then { c with h := rb.get_block c.claim_pos } else c

/-- The end of `fetch_block_from_middle`: `if (h) { rb.clear_block(claim_pos); return h; }`;
`none` when control reaches the end of the function. -/
def fetch_take (rb : recycle_bin) (c : claim_call) : recycle_bin × Option Nat :=
  if c.h = 0 then (rb, none) else (rb.clear_block c.claim_pos, some c.h)

/-- A step of a run in which two consumer calls, of the threads `A` and `B`, are in flight
while other calls and collector passes run as whole steps. -/
inductive race_step where
  | whole (s : bin_step)
  | claim_A
  | read_A
  | take_A
  | claim_B
  | read_B
  | take_B
deriving DecidableEq, Repr

/-- The state of such a run: heap and bin, the calls of `A` and `B` in flight, what they
returned, and the blocks the whole calls returned. -/
structure race_state where
  H : Heap
  rb : recycle_bin
  a : claim_call
  b : claim_call
  ret_a : Option Nat
  ret_b : Option Nat
  got : List Nat

/-- Run one step. -/
def race_step.run (st : race_state) : race_step → Except Fault race_state
  | .whole s =>
    match s.run st.H st.rb with
    | .error e => .error e
    | .ok (H1, rb1, x) =>
      .ok { st with H := H1, rb := rb1, got := if x = 0 then st.got else x :: st.got }
  | .claim_A => .ok { st with rb := (fetch_claim st.rb).1, a := (fetch_claim st.rb).2 }
  | .read_A => .ok { st with a := fetch_read st.rb st.a }
  | .take_A => .ok { st with rb := (fetch_take st.rb st.a).1, ret_a := (fetch_take st.rb st.a).2 }
  | .claim_B => .ok { st with rb := (fetch_claim st.rb).1, b := (fetch_claim st.rb).2 }
  | .read_B => .ok { st with b := fetch_read st.rb st.b }
  | .take_B => .ok { st with rb := (fetch_take st.rb st.b).1, ret_b := (fetch_take st.rb st.b).2 }

/-- Run the steps in order; a fault ends the run. -/
def race_run (st : race_state) : List race_step → Except Fault race_state
  | [] => .ok st
  | s :: ss =>
    match s.run st with
    | .error e => .error e
    | .ok st1 => race_run st1 ss

/-- The start of a run: the bin as its constructor leaves it (ring empty, positions and
depth zero) with the free list of `n` blocks from `base` on. -/
def race_start (base n : Nat) : race_state :=
  { H := { hdr := zero_mem, lnk := list_of_blocks base n },
    rb := { recycle_bin.constructor with _free_list := base },
    a := { claim_pos := 0, h := 0 }, b := { claim_pos := 0, h := 0 },
    ret_a := none, ret_b := none, got := [] }

/-! # Theorems -/

/-! ## Stores and loads -/

theorem store_size_apply (m : Mem) (a x : Nat) (v : Int) :
    store_size m a v x = if x = a then { m x with _size := wrap28 v } else m x := rfl

theorem store_prev_size_apply (m : Mem) (a x : Nat) (v : Int) :
    store_prev_size m a v x = if x = a then { m x with _prev_size := wrap32 v } else m x := rfl

theorem store_flags_apply (m : Mem) (a x : Nat) (v : Nat) :
    store_flags m a v x = if x = a then { m x with _flags := v % 16 } else m x := rfl

theorem wrap28_of_range {x : Int} (h1 : -2 ^ 27 ≤ x) (h2 : x < 2 ^ 27) : wrap28 x = x := by
  unfold wrap28; omega

theorem flag_set_then_test (f : Nat) : (((f ||| 1) % 16) &&& 1) % 16 ≠ 0 := by
  have h1 : ((f ||| 1) % 16) &&& 1 = 1 := by
    rw [Nat.and_one_is_mod, Nat.mod_mod_of_dvd _ (by decide : 2 ∣ 16)]
    rw [Nat.or_mod_two_eq_one]
    right; rfl
  rw [h1]; decide

theorem header_ext {h k : block_header} (h1 : h._prev_size = k._prev_size)
    (h2 : h._size = k._size) (h3 : h._flags = k._flags) : h = k := by
  cases h; cases k; simp_all


theorem split_after_snd (m : Mem) (a : Nat) (n : Int) :
    (block_header.split_after m a n).2 = ((a : Int) + 8 + n).toNat := rfl

theorem split_after_this (m : Mem) (a : Nat) (n : Int)
    (hne : ((a : Int) + 8 + n).toNat ≠ a) :
    (block_header.split_after m a n).1 a = { m a with _size := wrap28 n } := by
  simp only [block_header.split_after]
  split_ifs <;> simp [store_size_apply, store_prev_size_apply, hne.symm]

theorem split_after_new (m : Mem) (a : Nat) (n : Int)
    (hne : ((a : Int) + 8 + n).toNat ≠ a) :
    (block_header.split_after m a n).1 ((a : Int) + 8 + n).toNat =
      { _prev_size := wrap32 n,
        _size := if (m a)._size < 0 then wrap28 (-wrap28 ((m a).size - n - 8))
                 else wrap28 ((m a).size - n - 8),
        _flags := (m ((a : Int) + 8 + n).toNat)._flags } := by
  simp only [block_header.split_after]
  by_cases h : (m a)._size < 0 <;>
    simp [store_size_apply, store_prev_size_apply, hne, hne.symm, h]

theorem split_after_other (m : Mem) (a x : Nat) (n : Int)
    (h1 : x ≠ a) (h2 : x ≠ ((a : Int) + 8 + n).toNat) :
    (block_header.split_after m a n).1 x = m x := by
  simp only [block_header.split_after]
  split_ifs <;> simp [store_size_apply, store_prev_size_apply, h1, h2]

@[simp] theorem store_size_size (m : Mem) (a x : Nat) (v : Int) :
    (store_size m a v x)._size = if x = a then wrap28 v else (m x)._size := by
  unfold store_size; split <;> rfl

@[simp] theorem store_size_prev_size (m : Mem) (a x : Nat) (v : Int) :
    (store_size m a v x)._prev_size = (m x)._prev_size := by
  unfold store_size; split <;> rfl

@[simp] theorem store_size_flags (m : Mem) (a x : Nat) (v : Int) :
    (store_size m a v x)._flags = (m x)._flags := by
  unfold store_size; split <;> rfl

@[simp] theorem store_prev_size_size (m : Mem) (a x : Nat) (v : Int) :
    (store_prev_size m a v x)._size = (m x)._size := by
  unfold store_prev_size; split <;> rfl

@[simp] theorem store_prev_size_prev_size (m : Mem) (a x : Nat) (v : Int) :
    (store_prev_size m a v x)._prev_size = if x = a then wrap32 v else (m x)._prev_size := by
  unfold store_prev_size; split <;> rfl

@[simp] theorem store_prev_size_flags (m : Mem) (a x : Nat) (v : Int) :
    (store_prev_size m a v x)._flags = (m x)._flags := by
  unfold store_prev_size; split <;> rfl

@[simp] theorem store_flags_size (m : Mem) (a x : Nat) (v : Nat) :
    (store_flags m a v x)._size = (m x)._size := by
  unfold store_flags; split <;> rfl

@[simp] theorem store_flags_prev_size (m : Mem) (a x : Nat) (v : Nat) :
    (store_flags m a v x)._prev_size = (m x)._prev_size := by
  unfold store_flags; split <;> rfl

@[simp] theorem store_flags_flags (m : Mem) (a x : Nat) (v : Nat) :
    (store_flags m a v x)._flags = if x = a then v % 16 else (m x)._flags := by
  unfold store_flags; split <;> rfl

@[simp] theorem size_store_flags (m : Mem) (a x : Nat) (v : Nat) :
    (store_flags m a v x).size = (m x).size := by
  simp [block_header.size]

@[simp] theorem size_store_prev_size (m : Mem) (a x : Nat) (v : Int) :
    (store_prev_size m a v x).size = (m x).size := by
  simp [block_header.size]

/-- Sizes written by `merge_next` land in the header it is called on. -/
theorem merge_next_size_other (m : Mem) (this x : Nat) (hx : x ≠ this) :
    ((block_header.merge_next m this).1 x)._size = (m x)._size := by
  unfold block_header.merge_next
  simp only [block_header.is_mergable]
  split_ifs <;> simp [hx]


theorem next_of_pos (m : Mem) (this : Nat) (hs : 0 < (m this)._size) :
    block_header.next m this = this + 8 + (m this)._size.toNat := by
  simp [block_header.next, hs]

theorem next_ne_this (m : Mem) (this : Nat) (h : block_header.next m this ≠ 0) :
    block_header.next m this ≠ this := by
  unfold block_header.next at *
  split_ifs at * with h1
  · omega
  · exact absurd rfl h

theorem is_mergable_fst_size (m : Mem) (a x : Nat) :
    ((block_header.is_mergable m a).1 x)._size = (m x)._size := by
  simp [block_header.is_mergable]

theorem is_mergable_fst_prev_size (m : Mem) (a x : Nat) :
    ((block_header.is_mergable m a).1 x)._prev_size = (m x)._prev_size := by
  simp [block_header.is_mergable]

theorem is_mergable_fst_flags_other (m : Mem) (a x : Nat) (h : x ≠ a) :
    ((block_header.is_mergable m a).1 x)._flags = (m x)._flags := by
  simp [block_header.is_mergable, h]



theorem apply_ite_mem (c : Prop) [Decidable c] (m1 m2 : Mem) (x : Nat) :
    (if c then m1 else m2) x = if c then m1 x else m2 x := by
  split <;> rfl

/-- The closing `_prev_size` repair of `merge_next` does not touch the merging block. -/
theorem merge_fix_this (m : Mem) (this : Nat) (v : Int) :
    (if block_header.next m this = 0 then m
      else store_prev_size m (block_header.next m this) v) this = m this := by
  split
  · rfl
  · next h =>
    rw [store_prev_size_apply, if_neg (next_ne_this m this h).symm]

/-- The header `merge_next` leaves in the block it is called on, when it merges. -/
theorem merge_next_this_of_mergable (m : Mem) (this : Nat) (hs : 0 < (m this)._size)
    (hmg : (block_header.is_mergable m (block_header.next m this)).2 = true) :
    (block_header.merge_next m this).1 this =
      { m this with
        _size := if (m (block_header.next m this))._size < 0
          then wrap28 (-(wrap28 ((m this)._size + (m (block_header.next m this)).size + 8)))
          else wrap28 ((m this)._size + (m (block_header.next m this)).size + 8) } := by
  have hn0 : block_header.next m this ≠ 0 := by rw [next_of_pos m this hs]; omega
  have hnt := next_ne_this m this hn0
  generalize hN : block_header.next m this = nxt at *
  unfold block_header.merge_next
  simp only [hN, if_neg hn0, hmg, Bool.true_eq_false, if_false]
  rw [merge_fix_this, apply_ite_mem]
  apply header_ext
  · split_ifs <;> simp [is_mergable_fst_prev_size]
  · simp only [store_size_size, is_mergable_fst_size, if_true, hnt, if_false, block_header.size]
    split_ifs <;> simp
  · split_ifs <;> simp [is_mergable_fst_flags_other _ _ _ hnt.symm]

/-- C8. For a block whose stored size fits the 28-bit field, with body size `S`, and every
`n` with `8 ≤ n` and `n + 16 ≤ S`: `split_after(n)`, marking the new trailing block
MERGEABLE, then `merge_next()` on the original block restores the original header
(`_prev_size`, `_size` with its tail sign, `_flags`) exactly. -/
theorem split_merge_roundtrip (m : Mem) (a : Nat) (n : Int)
    (hlo : -2 ^ 27 ≤ (m a)._size) (hhi : (m a)._size < 2 ^ 27)
    (hn : 8 ≤ n) (hS : n + 16 ≤ (m a).size) :
    (block_header.merge_next
      (block_header.set_state (block_header.split_after m a n).1
        (block_header.split_after m a n).2 block_header.mergable) a).1 a = m a := by
  obtain ⟨k, rfl⟩ : ∃ k : Nat, n = (k : Int) := ⟨n.toNat, by omega⟩
  have hne : ((a : Int) + 8 + (k : Int)).toNat ≠ a := by omega
  have hta : a + 8 + k ≠ a := by omega
  have hn' : ((a : Int) + 8 + (k : Int)).toNat = a + 8 + k := by omega
  have hA := split_after_this m a k hne
  have hT := split_after_new m a k hne
  rw [split_after_snd]
  generalize (block_header.split_after m a k).1 = ms at hA hT
  rw [hn'] at hT ⊢
  unfold block_header.size at hS hT
  have hwk : wrap28 (k : Int) = k := wrap28_of_range (by omega) (by omega)
  have hk : (0 : Int) < k := by omega
  -- the memory after `set_state`
  generalize hM : block_header.set_state ms (a + 8 + k) block_header.mergable = m1
  have h1a : m1 a = { m a with _size := (k : Int) } := by
    rw [← hM, block_header.set_state, store_flags_apply, if_neg hta.symm, hA, hwk]
  have h1s : (m1 a)._size = k := by rw [h1a]
  have h1t : (m1 (a + 8 + k))._size = (ms (a + 8 + k))._size := by
    rw [← hM]; simp [block_header.set_state]
  have h1f : (m1 (a + 8 + k))._flags = ((ms (a + 8 + k))._flags ||| 1) % 16 := by
    rw [← hM]; simp [block_header.set_state]
  have hnext : block_header.next m1 a = a + 8 + k := by
    rw [next_of_pos m1 a (by omega), h1s]; simp
  have hmg : (block_header.is_mergable m1 (block_header.next m1 a)).2 = true := by
    rw [hnext]
    simp only [block_header.is_mergable, store_flags_flags, if_true, h1f]
    have := flag_set_then_test (ms (a + 8 + k))._flags
    simpa using this
  rw [merge_next_this_of_mergable m1 a (by omega) hmg, hnext, h1a]
  have hsz : (m1 (a + 8 + k)).size = (m a)._size.natAbs - k - 8 := by
    unfold block_header.size
    rw [h1t, hT]
    simp only
    split_ifs <;> (unfold wrap28; omega)
  apply header_ext
  · rfl
  · simp only [h1t, hT, hsz]
    unfold wrap28
    split_ifs <;> omega
  · rfl

/-! ## Pages: the chain of blocks -/

theorem chain_head_lt (m : Mem) (e a : Nat) (bs : List Nat) (h : Chain m e a bs) :
    a + 8 < e := by
  induction h with
  | tail a h1 h2 => omega
  | cons a bs h1 _ ih => omega

theorem chain_mem_ge (m : Mem) (e a : Nat) (bs : List Nat) (h : Chain m e a bs) :
    ∀ x ∈ bs, a ≤ x := by
  induction h with
  | tail a h1 h2 => intro x hx; simp at hx; omega
  | cons a bs h1 _ ih =>
    intro x hx
    rcases List.mem_cons.1 hx with rfl | hx
    · exact le_refl _
    · have := ih x hx; omega

theorem chain_frame (m m' : Mem) (e a : Nat) (bs : List Nat) (h : Chain m e a bs)
    (hsz : ∀ x ∈ bs, (m' x)._size = (m x)._size) : Chain m' e a bs := by
  induction h with
  | tail a h1 h2 =>
    have := hsz a (by simp)
    exact Chain.tail a (by omega) (by omega)
  | cons a bs h1 _ ih =>
    have h0 := hsz a (by simp)
    have := ih (fun x hx => hsz x (List.mem_cons_of_mem _ hx))
    refine Chain.cons a bs (by omega) ?_
    rw [h0]; exact this

theorem chain_length_le (m : Mem) (e a : Nat) (bs : List Nat) (h : Chain m e a bs) :
    a + bs.length ≤ e := by
  induction h with
  | tail a h1 h2 => simp; omega
  | cons a bs h1 _ ih => simp at *; omega

theorem chain_walk (m : Mem) (e a : Nat) (bs : List Nat) (h : Chain m e a bs) :
    ∀ fuel, bs.length ≤ fuel → walk m fuel a = some bs := by
  induction h with
  | tail a h1 h2 =>
    intro fuel hf
    obtain ⟨f, rfl⟩ : ∃ f, fuel = f + 1 := ⟨fuel - 1, by simp at hf; omega⟩
    have : block_header.next m a = 0 := by simp [block_header.next]; omega
    simp [walk, this]
  | cons a bs h1 _ ih =>
    intro fuel hf
    obtain ⟨f, rfl⟩ : ∃ f, fuel = f + 1 := ⟨fuel - 1, by simp at hf; omega⟩
    have hn : block_header.next m a = a + 8 + (m a)._size.toNat := next_of_pos m a h1
    have hne : block_header.next m a ≠ 0 := by omega
    rw [hn] at hne
    simp only [walk, hn, if_neg hne, ih f (by simp at hf; omega)]
    rfl

theorem chain_bytes (m : Mem) (e a : Nat) (bs : List Nat) (h : Chain m e a bs) :
    page_bytes m bs = (e : Int) - a := by
  induction h with
  | tail a h1 h2 =>
    simp only [page_bytes, List.map_cons, List.map_nil, List.sum_cons, List.sum_nil,
      block_header.size]
    omega
  | cons a bs h1 _ ih =>
    simp only [page_bytes, List.map_cons, List.sum_cons] at *
    rw [ih]; simp only [block_header.size]; omega

theorem chain_ends (m : Mem) (e a : Nat) (bs : List Nat) (h : Chain m e a bs) :
    ends_at_tail m bs := by
  induction h with
  | tail a h1 h2 => exact ⟨a, rfl, h1⟩
  | cons a bs h1 hc ih =>
    obtain ⟨t, ht, hs⟩ := ih
    refine ⟨t, ?_, hs⟩
    cases hc <;> simpa using ht

theorem merge_next_of_next_null (m : Mem) (this : Nat) (h : block_header.next m this = 0) :
    (block_header.merge_next m this).1 = m := by
  simp [block_header.merge_next, h]

theorem merge_next_size_of_not_mergable (m : Mem) (this : Nat)
    (h : (block_header.is_mergable m (block_header.next m this)).2 = false) (x : Nat) :
    ((block_header.merge_next m this).1 x)._size = (m x)._size := by
  unfold block_header.merge_next
  simp only [h, if_true]
  split_ifs
  · rfl
  · exact is_mergable_fst_size m _ x

theorem chain_mem_end (m : Mem) (e a : Nat) (bs : List Nat) (h : Chain m e a bs) :
    ∀ x ∈ bs, (x : Int) + 8 + (m x)._size.natAbs ≤ e := by
  induction h with
  | tail a h1 h2 => intro x hx; simp at hx; subst hx; omega
  | cons a bs h1 hc ih =>
    intro x hx
    rcases List.mem_cons.1 hx with rfl | hx
    · have := chain_head_lt _ _ _ _ hc; omega
    · exact ih x hx

/-- The two sizes `split_after` writes, free of wrap-around for a block that fits the
28-bit field. -/
theorem split_after_sizes (m : Mem) (x k : Nat) (hk : 1 ≤ k)
    (hS : (k : Int) + 9 ≤ (m x)._size.natAbs) (hle : ((m x)._size.natAbs : Int) ≤ 2 ^ 27) :
    ((block_header.split_after m x k).1 x)._size = k ∧
    ((block_header.split_after m x k).1 (x + 8 + k))._size =
      (if (m x)._size < 0 then -(((m x)._size.natAbs : Int) - k - 8)
        else ((m x)._size.natAbs : Int) - k - 8) := by
  have hne : ((x : Int) + 8 + (k : Int)).toNat ≠ x := by omega
  have hn' : ((x : Int) + 8 + (k : Int)).toNat = x + 8 + k := by omega
  have hX := split_after_this m x k hne
  have hT := split_after_new m x k hne
  rw [hn'] at hT
  rw [hX, hT]
  simp only [block_header.size]
  generalize ((m x)._size.natAbs : Int) = S at *
  have w1 : wrap28 (k : Int) = k := wrap28_of_range (by omega) (by omega)
  have w2 : wrap28 (S - k - 8) = S - k - 8 := wrap28_of_range (by omega) (by omega)
  have w3 : wrap28 (-(S - k - 8)) = -(S - k - 8) := wrap28_of_range (by omega) (by omega)
  refine ⟨w1, ?_⟩
  split_ifs
  · rw [w2, w3]
  · rw [w2]

theorem chain_split (m : Mem) (e a : Nat) (bs : List Nat) (h : Chain m e a bs) (x : Nat)
    (n : Int) (h1 : 1 ≤ n) (h2 : n + 9 ≤ (m x).size)
    (hb : e ≤ a + 2 ^ 27 + 8) (hx : x ∈ bs) :
    ∃ bs', Chain (block_header.split_after m x n).1 e a bs' := by
  obtain ⟨k, rfl⟩ : ∃ k : Nat, n = (k : Int) := ⟨n.toNat, by omega⟩
  unfold block_header.size at h2
  have hend := chain_mem_end _ _ _ _ h x hx
  have hxa := chain_mem_ge _ _ _ _ h x hx
  obtain ⟨hXs, hTs⟩ := split_after_sizes m x k (by omega) h2 (by omega)
  have hO : ∀ y, y ≠ x → y ≠ x + 8 + k → (block_header.split_after m x k).1 y = m y := by
    intro y y1 y2
    exact split_after_other m x y k y1 (by omega)
  generalize (block_header.split_after m x k).1 = ms at hXs hTs hO
  clear hend hxa hb
  induction h with
  | tail a s1 s2 =>
    have hxa : x = a := by simpa using hx
    subst hxa
    rw [if_pos s1] at hTs
    refine ⟨[x, x + 8 + k], Chain.cons _ _ (by omega) ?_⟩
    have : x + 8 + (ms x)._size.toNat = x + 8 + k := by omega
    rw [this]
    exact Chain.tail _ (by omega) (by omega)
  | cons a bs s1 hc ih =>
    have hlt := chain_head_lt _ _ _ _ hc
    have hge := chain_mem_ge _ _ _ _ hc
    by_cases hxa : x = a
    · subst hxa
      rw [if_neg (by omega)] at hTs
      refine ⟨x :: (x + 8 + k) :: bs, Chain.cons _ _ (by omega) ?_⟩
      have e1 : x + 8 + (ms x)._size.toNat = x + 8 + k := by omega
      rw [e1]
      refine Chain.cons _ _ (by omega) ?_
      have e2 : x + 8 + k + 8 + (ms (x + 8 + k))._size.toNat = x + 8 + (m x)._size.toNat := by
        omega
      rw [e2]
      refine chain_frame m ms _ _ _ hc ?_
      intro y hy
      have := hge y hy
      rw [hO y (by omega) (by omega)]
    · have hxb : x ∈ bs := by
        rcases List.mem_cons.1 hx with h | h
        · exact absurd h hxa
        · exact h
      have hxge := hge x hxb
      obtain ⟨bs', hbs'⟩ := ih hxb
      have ha := hO a (by omega) (by omega)
      refine ⟨a :: bs', Chain.cons _ _ ?_ ?_⟩
      · rw [ha]; exact s1
      · rw [ha]; exact hbs'

theorem chain_merge_next (m : Mem) (e a : Nat) (bs : List Nat) (h : Chain m e a bs) (p : Nat) :
    e ≤ a + 2 ^ 27 + 8 → ∃ bs', Chain (block_header.merge_next m p).1 e a bs' := by
  induction h with
  | tail a s1 s2 =>
    intro hb
    by_cases hpa : p = a
    · subst hpa
      have : block_header.next m p = 0 := by simp [block_header.next]; omega
      rw [merge_next_of_next_null m p this]
      exact ⟨[p], Chain.tail p s1 s2⟩
    · refine ⟨[a], chain_frame m _ _ _ _ (Chain.tail a s1 s2) ?_⟩
      intro y hy
      have : y = a := by simpa using hy
      subst this
      exact merge_next_size_other m p y (Ne.symm hpa)
  | cons a bs s1 hc ih =>
    intro hb
    have hlt := chain_head_lt _ _ _ _ hc
    have hge := chain_mem_ge _ _ _ _ hc
    by_cases hpa : p = a
    · subst hpa
      have hn := next_of_pos m p s1
      by_cases hmg : (block_header.is_mergable m (block_header.next m p)).2 = true
      · have hP := merge_next_this_of_mergable m p s1 hmg
        have hO := fun y hy => merge_next_size_other m p y hy
        generalize (block_header.merge_next m p).1 = mm at hP hO
        rw [hn] at hP
        unfold block_header.size at hP
        cases hc with
        | tail _ t1 t2 =>
          rw [if_pos t1] at hP
          refine ⟨[p], Chain.tail p ?_ ?_⟩
          · rw [hP]; simp only; unfold wrap28; omega
          · rw [hP]; simp only; unfold wrap28; omega
        | cons _ bs2 t1 hc2 =>
          have hlt2 := chain_head_lt _ _ _ _ hc2
          have hge2 := chain_mem_ge _ _ _ _ hc2
          rw [if_neg (by omega)] at hP
          refine ⟨p :: bs2, Chain.cons p bs2 ?_ ?_⟩
          · rw [hP]; simp only; unfold wrap28; omega
          · have : p + 8 + (mm p)._size.toNat
                = p + 8 + (m p)._size.toNat + 8 + (m (p + 8 + (m p)._size.toNat))._size.toNat := by
              rw [hP]; simp only; unfold wrap28; omega
            rw [this]
            refine chain_frame m mm _ _ _ hc2 ?_
            intro y hy
            have := hge2 y hy
            exact hO y (by omega)
      · have hmg' : (block_header.is_mergable m (block_header.next m p)).2 = false := by
          simpa using hmg
        refine ⟨p :: bs, chain_frame m _ _ _ _ (Chain.cons p bs s1 hc) ?_⟩
        intro y _
        exact merge_next_size_of_not_mergable m p hmg' y
    · obtain ⟨bs', hbs'⟩ := ih (by omega)
      have := merge_next_size_other m p a (Ne.symm hpa)
      refine ⟨a :: bs', Chain.cons _ _ ?_ ?_⟩
      · rw [this]; exact s1
      · rw [this]; exact hbs'

theorem chain_merge_prev (m : Mem) (e a : Nat) (bs : List Nat) (h : Chain m e a bs) (x : Nat)
    (hb : e ≤ a + 2 ^ 27 + 8) : ∃ bs', Chain (block_header.merge_prev m x).1 e a bs' := by
  unfold block_header.merge_prev
  simp only
  split_ifs with h1 h2
  · exact ⟨bs, h⟩
  · exact ⟨bs, chain_frame m _ _ _ _ h (fun y _ => is_mergable_fst_size m _ y)⟩
  · exact chain_merge_next _ _ _ _
      (chain_frame m _ _ _ _ h (fun y _ => is_mergable_fst_size m _ y)) _ hb

theorem chain_init (m0 : Mem) (base ps : Nat) (h1 : 8 < ps) (h2 : ps ≤ 2 ^ 27 + 8) :
    Chain (block_header.init m0 base ps) (base + ps) base [base] := by
  have : ((block_header.init m0 base ps) base)._size = -((ps : Int) - 8) := by
    simp only [block_header.init, store_size_size, if_true]
    unfold wrap28; omega
  refine Chain.tail _ ?_ ?_
  · rw [this]; omega
  · rw [this]; push_cast; omega

/-! ## Header cells on the 8-byte grid -/

/-- The 28-bit wrap keeps the residue modulo 8. -/
theorem wrap28_mod8 (v : Int) : wrap28 v % 8 = v % 8 := by
  unfold wrap28; omega

/-- The 32-bit wrap keeps the residue modulo 8. -/
theorem wrap32_mod8 (v : Int) : wrap32 v % 8 = v % 8 := by
  unfold wrap32; omega

/-- A store of a multiple of 8 into `_size` at a grid address keeps the cells on the grid. -/
theorem cells_ok_store_size (m0 m : Mem) (a : Nat) (v : Int) (h : cells_ok m0 m)
    (ha : a % 8 = 0) (hv : v % 8 = 0) : cells_ok m0 (store_size m a v) := by
  refine ⟨fun x hx => ?_, fun x hx => ?_⟩
  · have := h.1 x hx
    simp only [store_size_prev_size, store_size_size]
    refine ⟨this.1, ?_⟩
    split_ifs
    · rw [wrap28_mod8]; exact hv
    · exact this.2
  · have hne : x ≠ a := fun e => hx (e ▸ ha)
    rw [store_size_apply, if_neg hne]
    exact h.2 x hx

/-- A store of a multiple of 8 into `_prev_size` at a grid address keeps the cells on the
grid. -/
theorem cells_ok_store_prev_size (m0 m : Mem) (a : Nat) (v : Int) (h : cells_ok m0 m)
    (ha : a % 8 = 0) (hv : v % 8 = 0) : cells_ok m0 (store_prev_size m a v) := by
  refine ⟨fun x hx => ?_, fun x hx => ?_⟩
  · have := h.1 x hx
    simp only [store_prev_size_prev_size, store_prev_size_size]
    refine ⟨?_, this.2⟩
    split_ifs
    · rw [wrap32_mod8]; exact hv
    · exact this.1
  · have hne : x ≠ a := fun e => hx (e ▸ ha)
    rw [store_prev_size_apply, if_neg hne]
    exact h.2 x hx

/-- A store into `_flags` at a grid address keeps the cells on the grid. -/
theorem cells_ok_store_flags (m0 m : Mem) (a : Nat) (v : Nat) (h : cells_ok m0 m)
    (ha : a % 8 = 0) : cells_ok m0 (store_flags m a v) := by
  refine ⟨fun x hx => ?_, fun x hx => ?_⟩
  · have := h.1 x hx
    simp only [store_flags_prev_size, store_flags_size]
    exact this
  · have hne : x ≠ a := fun e => hx (e ▸ ha)
    rw [store_flags_apply, if_neg hne]
    exact h.2 x hx

/-- The body size read at a grid address is a multiple of 8. -/
theorem cells_ok_size (m0 m : Mem) (a : Nat) (h : cells_ok m0 m) (ha : a % 8 = 0) :
    (m a).size % 8 = 0 := by
  have := (h.1 a ha).2
  unfold block_header.size
  omega

/-- From a grid address `next()` leads to a grid address. -/
theorem cells_ok_next (m0 m : Mem) (a : Nat) (h : cells_ok m0 m) (ha : a % 8 = 0) :
    block_header.next m a % 8 = 0 := by
  have := (h.1 a ha).2
  unfold block_header.next
  split_ifs <;> omega

/-- From a grid address `prev()` leads to a grid address. -/
theorem cells_ok_prev (m0 m : Mem) (a : Nat) (h : cells_ok m0 m) (ha : a % 8 = 0) :
    block_header.prev m a % 8 = 0 := by
  have := (h.1 a ha).1
  unfold block_header.prev
  split_ifs <;> omega

/-- The flag query `is_mergable()` at a grid address keeps the cells on the grid. -/
theorem cells_ok_is_mergable (m0 m : Mem) (a : Nat) (h : cells_ok m0 m) (ha : a % 8 = 0) :
    cells_ok m0 (block_header.is_mergable m a).1 :=
  cells_ok_store_flags m0 m a _ h ha

/-- A memory chosen by a test is on the grid when both choices are. -/
theorem cells_ok_ite (m0 A B : Mem) (c : Prop) [Decidable c] (hA : cells_ok m0 A)
    (hB : cells_ok m0 B) : cells_ok m0 (if c then A else B) := by
  split_ifs
  · exact hA
  · exact hB

/-- The call `split_after(n)` at a grid address, with `n` a multiple of 8, keeps the cells
on the grid. -/
theorem cells_ok_split (m0 m : Mem) (a : Nat) (n : Int) (h : cells_ok m0 m)
    (ha : a % 8 = 0) (hn : n % 8 = 0) :
    cells_ok m0 (block_header.split_after m a n).1 := by
  have hna : ((a : Int) + 8 + n).toNat % 8 = 0 := by omega
  unfold block_header.split_after
  dsimp only
  have k1 := cells_ok_store_prev_size m0 m _ n h hna hn
  have k2 := cells_ok_store_size m0 _ ((a : Int) + 8 + n).toNat
    ((store_prev_size m ((a : Int) + 8 + n).toNat n a).size - n - 8) k1 hna
    (by have := cells_ok_size m0 _ a k1 ha; omega)
  refine cells_ok_store_size m0 _ a n ?_ ha hn
  exact cells_ok_ite m0 _ _ _
    (cells_ok_store_size m0 _ _ _ k2 hna (by have := (k2.1 _ hna).2; omega)) k2

/-- The call `merge_next()` at a grid address keeps the cells on the grid. -/
theorem cells_ok_merge_next (m0 m : Mem) (a : Nat) (h : cells_ok m0 m) (ha : a % 8 = 0) :
    cells_ok m0 (block_header.merge_next m a).1 := by
  have hn := cells_ok_next m0 m a h ha
  unfold block_header.merge_next
  dsimp only
  by_cases c1 : block_header.next m a = 0
  · rw [if_pos c1]; exact h
  · rw [if_neg c1]
    have k1 := cells_ok_is_mergable m0 m _ h hn
    by_cases c2 : (block_header.is_mergable m (block_header.next m a)).2 = false
    · rw [if_pos c2]; exact k1
    · rw [if_neg c2]
      have k2 := cells_ok_store_size m0 _ a
        (((block_header.is_mergable m (block_header.next m a)).1 a)._size
          + ((block_header.is_mergable m (block_header.next m a)).1
              (block_header.next m a)).size + 8) k1 ha
        (by have := (k1.1 a ha).2; have := cells_ok_size m0 _ _ k1 hn; omega)
      have k3 := cells_ok_ite m0 _ _
        ((store_size (block_header.is_mergable m (block_header.next m a)).1 a
            (((block_header.is_mergable m (block_header.next m a)).1 a)._size
              + ((block_header.is_mergable m (block_header.next m a)).1
                  (block_header.next m a)).size + 8) (block_header.next m a))._size < 0)
        (cells_ok_store_size m0 _ a
          (-((store_size (block_header.is_mergable m (block_header.next m a)).1 a
            (((block_header.is_mergable m (block_header.next m a)).1 a)._size
              + ((block_header.is_mergable m (block_header.next m a)).1
                  (block_header.next m a)).size + 8)) a)._size) k2 ha
          (by have := (k2.1 a ha).2; omega)) k2
      exact cells_ok_ite m0 _ _ _ k3
        (cells_ok_store_prev_size m0 _ _ _ k3 (cells_ok_next m0 _ a k3 ha)
          (cells_ok_size m0 _ a k3 ha))

/-- The call `merge_prev()` at a grid address keeps the cells on the grid. -/
theorem cells_ok_merge_prev (m0 m : Mem) (a : Nat) (h : cells_ok m0 m) (ha : a % 8 = 0) :
    cells_ok m0 (block_header.merge_prev m a).1 := by
  have hp := cells_ok_prev m0 m a h ha
  unfold block_header.merge_prev
  dsimp only
  by_cases c1 : block_header.prev m a = 0
  · rw [if_pos c1]; exact h
  · rw [if_neg c1]
    by_cases c2 : (block_header.is_mergable m (block_header.prev m a)).2 = false
    · rw [if_pos c2]; exact cells_ok_is_mergable m0 m _ h hp
    · rw [if_neg c2]
      exact cells_ok_merge_next m0 _ _ (cells_ok_is_mergable m0 m _ h hp) hp

/-- The call `init(s)` at a grid address, with `s` a multiple of 8, puts the cells on the
grid when the cells of the memory it starts from are. -/
theorem cells_ok_init (m0 : Mem) (base ps : Nat)
    (h0 : ∀ a, a % 8 = 0 → (m0 a)._prev_size % 8 = 0 ∧ (m0 a)._size % 8 = 0)
    (hb : base % 8 = 0) (hp : ps % 8 = 0) : cells_ok m0 (block_header.init m0 base ps) := by
  have k0 : cells_ok m0 m0 := ⟨h0, fun _ _ => rfl⟩
  unfold block_header.init
  exact cells_ok_store_size m0 _ base _
    (cells_ok_store_prev_size m0 m0 base 0 k0 hb (by decide)) hb (by omega)

/-- The blocks of a chain that starts on the grid lie on the grid. -/
theorem chain_mem_grid (m0 m : Mem) (e a : Nat) (bs : List Nat) (h : Chain m e a bs)
    (hc : cells_ok m0 m) : a % 8 = 0 → ∀ x ∈ bs, x % 8 = 0 := by
  induction h with
  | tail a _ _ => intro ha x hx; simp at hx; subst hx; exact ha
  | cons a bs h1 _ ih =>
    intro ha x hx
    rcases List.mem_cons.1 hx with rfl | hx
    · exact ha
    · have := (hc.1 a ha).2
      exact ih (by omega) x hx

/-- The invariants of every reachable page memory: the blocks form a chain that ends at the
end of the page, and the header cells stay on the 8-byte grid. -/
theorem page_reachable_chain (base ps : Nat) (m0 m : Mem) (h1 : 8 < ps)
    (h2 : ps ≤ 2 ^ 27 + 8) (hb : base % 8 = 0) (hp : ps % 8 = 0)
    (h0 : ∀ a, a % 8 = 0 → (m0 a)._prev_size % 8 = 0 ∧ (m0 a)._size % 8 = 0)
    (hr : page_reachable 1 9 base ps m0 m) :
    (∃ bs, Chain m (base + ps) base bs) ∧ cells_ok m0 m := by
  induction hr with
  | init => exact ⟨⟨_, chain_init m0 base ps h1 h2⟩, cells_ok_init m0 base ps h0 hb hp⟩
  | split m a n _ ha hn1 hn2 hn8 ih =>
    obtain ⟨⟨bs, hbs⟩, hc⟩ := ih
    have hw := chain_walk _ _ _ _ hbs ps (by have := chain_length_le _ _ _ _ hbs; omega)
    have hmem : a ∈ bs := by simpa [page_blocks, hw] using ha
    exact ⟨chain_split m _ _ _ hbs a n hn1 hn2 (by omega) hmem,
      cells_ok_split m0 m a n hc (chain_mem_grid m0 m _ _ _ hbs hc hb a hmem) hn8⟩
  | mark m a _ ha ih =>
    obtain ⟨⟨bs, hbs⟩, hc⟩ := ih
    have hw := chain_walk _ _ _ _ hbs ps (by have := chain_length_le _ _ _ _ hbs; omega)
    have hmem : a ∈ bs := by simpa [page_blocks, hw] using ha
    exact ⟨⟨bs, chain_frame m _ _ _ _ hbs (fun y _ => by simp [block_header.set_state])⟩,
      cells_ok_store_flags m0 m a _ hc (chain_mem_grid m0 m _ _ _ hbs hc hb a hmem)⟩
  | merge_next m a _ ha ih =>
    obtain ⟨⟨bs, hbs⟩, hc⟩ := ih
    have hw := chain_walk _ _ _ _ hbs ps (by have := chain_length_le _ _ _ _ hbs; omega)
    have hmem : a ∈ bs := by simpa [page_blocks, hw] using ha
    exact ⟨chain_merge_next m _ _ _ hbs a (by omega),
      cells_ok_merge_next m0 m a hc (chain_mem_grid m0 m _ _ _ hbs hc hb a hmem)⟩
  | merge_prev m a _ ha ih =>
    obtain ⟨⟨bs, hbs⟩, hc⟩ := ih
    have hw := chain_walk _ _ _ _ hbs ps (by have := chain_length_le _ _ _ _ hbs; omega)
    have hmem : a ∈ bs := by simpa [page_blocks, hw] using ha
    exact ⟨chain_merge_prev m _ _ _ hbs a (by omega),
      cells_ok_merge_prev m0 m a hc (chain_mem_grid m0 m _ _ _ hbs hc hb a hmem)⟩

/-! ## Claims on block headers -/

/-- C8, at a concrete page: the tail block of a 64-byte page, split after 8 bytes. -/
theorem split_merge_roundtrip_witness :
    (block_header.merge_next
      (block_header.set_state
        (block_header.split_after (block_header.init zero_mem 0 64) 0 8).1
        (block_header.split_after (block_header.init zero_mem 0 64) 0 8).2
        block_header.mergable) 0).1 0 = block_header.init zero_mem 0 64 0 :=
  split_merge_roundtrip (block_header.init zero_mem 0 64) 0 8
    (by decide) (by decide) (by decide) (by decide)

/-- C6 as amended. On a page at a multiple of 8, of `page_size` bytes (a multiple of 8 with
`8 < page_size ≤ 2^27 + 8`, the range the 28-bit size field holds), initialised by `init`
on a memory whose cells on the 8-byte grid hold multiples of 8: after any sequence of
`split_after(n)` with `n` a multiple of 8 and `1 ≤ n ≤ size() - 9`, `set_state(mergable)`,
`merge_next` and `merge_prev` on blocks of the page, the walk from the first block through
`next()` ends (within `page_size` steps) at a tail sentinel, the sum of `size() + 8` over
the walked blocks is `page_size`, and every header lies on the 8-byte grid: the walked
blocks do, the fields of the grid cells are multiples of 8, and no cell off the grid was
ever written. -/
theorem page_walk_sum (base page_size : Nat) (m0 m : Mem)
    (h1 : 8 < page_size) (h2 : page_size ≤ 2 ^ 27 + 8)
    (hb : base % 8 = 0) (hp : page_size % 8 = 0)
    (h0 : ∀ a, a % 8 = 0 → (m0 a)._prev_size % 8 = 0 ∧ (m0 a)._size % 8 = 0)
    (hr : page_reachable 1 9 base page_size m0 m) :
    (∃ bs, walk m page_size base = some bs ∧ ends_at_tail m bs ∧
      page_bytes m bs = page_size ∧ ∀ x ∈ bs, x % 8 = 0) ∧
    cells_ok m0 m := by
  obtain ⟨⟨bs, hbs⟩, hc⟩ := page_reachable_chain base page_size m0 m h1 h2 hb hp h0 hr
  refine ⟨⟨bs, ?_, chain_ends _ _ _ _ hbs, ?_, chain_mem_grid m0 m _ _ _ hbs hc hb⟩, hc⟩
  · exact chain_walk _ _ _ _ hbs page_size (by have := chain_length_le _ _ _ _ hbs; omega)
  · rw [chain_bytes _ _ _ _ hbs]; omega

/-- C6 as amended, at a concrete page: 64 bytes at 4096 on zeroed memory; `split_after(24)`
on the tail, `split_after(8)` on the head, `set_state(mergable)` on the block 4112 and
`merge_next` on the head, which then is a body of 8 + 8 + 8 = 24 bytes again (it was 8
before the merge): the walk is 4096, 4128. -/
theorem page_walk_sum_witness :
    (((block_header.set_state (block_header.split_after
        (block_header.split_after (block_header.init zero_mem 4096 64) 4096 24).1 4096 8).1
        4112 block_header.mergable) 4096).size = 8 ∧
      ((block_header.merge_next (block_header.set_state (block_header.split_after
        (block_header.split_after (block_header.init zero_mem 4096 64) 4096 24).1 4096 8).1
        4112 block_header.mergable) 4096).1 4096).size = 24 ∧
      walk (block_header.merge_next (block_header.set_state (block_header.split_after
        (block_header.split_after (block_header.init zero_mem 4096 64) 4096 24).1 4096 8).1
        4112 block_header.mergable) 4096).1 64 4096 = some [4096, 4128]) ∧
    ((∃ bs, walk (block_header.merge_next (block_header.set_state (block_header.split_after
        (block_header.split_after (block_header.init zero_mem 4096 64) 4096 24).1 4096 8).1
        4112 block_header.mergable) 4096).1 64 4096 = some bs ∧
      ends_at_tail (block_header.merge_next (block_header.set_state (block_header.split_after
        (block_header.split_after (block_header.init zero_mem 4096 64) 4096 24).1 4096 8).1
        4112 block_header.mergable) 4096).1 bs ∧
      page_bytes (block_header.merge_next (block_header.set_state (block_header.split_after
        (block_header.split_after (block_header.init zero_mem 4096 64) 4096 24).1 4096 8).1
        4112 block_header.mergable) 4096).1 bs = (64 : Nat) ∧ ∀ x ∈ bs, x % 8 = 0) ∧
    cells_ok zero_mem (block_header.merge_next (block_header.set_state
        (block_header.split_after
        (block_header.split_after (block_header.init zero_mem 4096 64) 4096 24).1 4096 8).1
        4112 block_header.mergable) 4096).1) :=
  ⟨by decide,
    page_walk_sum 4096 64 zero_mem _ (by decide) (by decide) (by decide) (by decide)
      (fun _ _ => ⟨rfl, rfl⟩)
      (page_reachable.merge_next _ 4096
        (page_reachable.mark _ 4112
          (page_reachable.split _ 4096 8
            (page_reachable.split _ 4096 24 page_reachable.init (by decide) (by decide)
              (by decide) (by decide))
            (by decide) (by decide) (by decide) (by decide))
          (by decide))
        (by decide))⟩

/-- C6, the claim as stated fails: with `0 ≤ n ≤ size() - 8` allowed, (1) `split_after(0)` on
the 64-byte page leaves a head of stored size 0, where `next()` stops: the walk is `[0]`, its
last block is no tail sentinel and it covers 8 bytes, not 64; (2) `split_after(size() - 8)`
on a block that is not the tail leaves a block of stored size 0 in the middle of the page,
where the walk stops short. -/
theorem page_walk_sum_counterexample :
    (page_reachable 0 8 0 64 zero_mem
        (block_header.split_after (block_header.init zero_mem 0 64) 0 0).1 ∧
      walk (block_header.split_after (block_header.init zero_mem 0 64) 0 0).1 64 0 = some [0] ∧
      ¬ ends_at_tail (block_header.split_after (block_header.init zero_mem 0 64) 0 0).1 [0] ∧
      page_bytes (block_header.split_after (block_header.init zero_mem 0 64) 0 0).1 [0] = 8) ∧
    (page_reachable 0 8 0 64 zero_mem (block_header.split_after
        (block_header.split_after (block_header.init zero_mem 0 64) 0 24).1 0 16).1 ∧
      walk (block_header.split_after
        (block_header.split_after (block_header.init zero_mem 0 64) 0 24).1 0 16).1 64 0
        = some [0, 24] ∧
      page_bytes (block_header.split_after
        (block_header.split_after (block_header.init zero_mem 0 64) 0 24).1 0 16).1 [0, 24]
        = 32) := by
  refine ⟨⟨?_, by decide, ?_, by decide⟩, ?_, by decide, by decide⟩
  · exact page_reachable.split _ 0 0 page_reachable.init (by decide) (by decide)
      (by decide) (by decide)
  · rintro ⟨t, ht, hs⟩
    simp at ht
    subst ht
    revert hs
    decide
  · exact page_reachable.split _ 0 16
      (page_reachable.split _ 0 24 page_reachable.init (by decide) (by decide)
        (by decide) (by decide))
      (by decide) (by decide) (by decide) (by decide)

/-- C7, the code at the failing input: on a 64-byte page, `split_after(24)` and then
`split_after(8)` on the head (a block that is not the tail) leave blocks at 0, 16 and 32;
the block at 32 follows the block at 16, whose `size()` is 8, yet its `_prev_size` is still
24. -/
theorem split_non_tail_stale_prev_size :
    walk (block_header.split_after
        (block_header.split_after (block_header.init zero_mem 0 64) 0 24).1 0 8).1 64 0
      = some [0, 16, 32] ∧
    block_header.next (block_header.split_after
        (block_header.split_after (block_header.init zero_mem 0 64) 0 24).1 0 8).1 16 = 32 ∧
    ((block_header.split_after
        (block_header.split_after (block_header.init zero_mem 0 64) 0 24).1 0 8).1 16).size = 8 ∧
    ((block_header.split_after
        (block_header.split_after (block_header.init zero_mem 0 64) 0 24).1 0 8).1 32)._prev_size
      = 24 := by
  decide

/-- C17, the code at the failing input: on a 64-byte page split after 24 bytes, the successor
(at 32) carries ALIGN and not MERGEABLE. `merge_next()` on the head does not merge, yet the
query `is_mergable()` it makes has stored the masked flags back: the successor's flags went
from 4 to 0, so a header other than the block's own was changed. -/
theorem merge_next_clears_successor_flags :
    ((block_header.set_state
      (block_header.split_after (block_header.init zero_mem 0 64) 0 24).1 32
      block_header.alignblock) 32)._flags = 4 ∧
    (block_header.merge_next (block_header.set_state
      (block_header.split_after (block_header.init zero_mem 0 64) 0 24).1 32
      block_header.alignblock) 0).1 0 =
      (block_header.set_state
        (block_header.split_after (block_header.init zero_mem 0 64) 0 24).1 32
        block_header.alignblock) 0 ∧
    ((block_header.merge_next (block_header.set_state
      (block_header.split_after (block_header.init zero_mem 0 64) 0 24).1 32
      block_header.alignblock) 0).1 32)._flags = 0 := by
  decide

/-- C18 as amended. For a block whose stored size fits the 28-bit field, with body size `S`,
and every `n` with `0 ≤ n ≤ S - 9`: after `split_after(n)` the original block has
`size() = n` and is not a tail sentinel, the returned block starts at `data() + n` with
`_prev_size = n` and `size() = S - n - 8`, and its stored size is negative iff the original
block was the tail. -/
theorem split_after_spec (m : Mem) (a : Nat) (n : Int)
    (hlo : -2 ^ 27 ≤ (m a)._size) (hhi : (m a)._size < 2 ^ 27)
    (hn : 0 ≤ n) (hS : n + 9 ≤ (m a).size) :
    ((block_header.split_after m a n).1 a).size = n ∧
    ¬ ((block_header.split_after m a n).1 a)._size < 0 ∧
    ((block_header.split_after m a n).2 : Int) = block_header.data a + n ∧
    ((block_header.split_after m a n).1 (block_header.split_after m a n).2)._prev_size = n ∧
    ((block_header.split_after m a n).1 (block_header.split_after m a n).2).size
      = (m a).size - n - 8 ∧
    (((block_header.split_after m a n).1 (block_header.split_after m a n).2)._size < 0
      ↔ (m a)._size < 0) := by
  obtain ⟨k, rfl⟩ : ∃ k : Nat, n = (k : Int) := ⟨n.toNat, by omega⟩
  have hne : ((a : Int) + 8 + (k : Int)).toNat ≠ a := by omega
  rw [split_after_snd, split_after_this m a k hne, split_after_new m a k hne]
  unfold block_header.size at hS ⊢
  simp only [block_header.data]
  generalize hSv : ((m a)._size.natAbs : Int) = S at *
  have w1 : wrap28 (k : Int) = k := wrap28_of_range (by omega) (by omega)
  have w2 : wrap28 (S - k - 8) = S - k - 8 := wrap28_of_range (by omega) (by omega)
  have w3 : wrap28 (-(S - k - 8)) = -(S - k - 8) := wrap28_of_range (by omega) (by omega)
  have w4 : wrap32 (k : Int) = k := by unfold wrap32; omega
  rw [w1, w2, w3, w4]
  refine ⟨by omega, by omega, by omega, rfl, ?_, ?_⟩
  · split_ifs <;> omega
  · split_ifs <;> omega

/-- C18 as amended, at a concrete block: the tail of a 64-byte page split after 16 bytes. -/
theorem split_after_spec_witness :
    ((block_header.split_after (block_header.init zero_mem 0 64) 0 16).1 0).size = 16 ∧
    ¬ ((block_header.split_after (block_header.init zero_mem 0 64) 0 16).1 0)._size < 0 ∧
    ((block_header.split_after (block_header.init zero_mem 0 64) 0 16).2 : Int)
      = block_header.data 0 + 16 ∧
    ((block_header.split_after (block_header.init zero_mem 0 64) 0 16).1
      (block_header.split_after (block_header.init zero_mem 0 64) 0 16).2)._prev_size = 16 ∧
    ((block_header.split_after (block_header.init zero_mem 0 64) 0 16).1
      (block_header.split_after (block_header.init zero_mem 0 64) 0 16).2).size
      = (block_header.init zero_mem 0 64 0).size - 16 - 8 ∧
    (((block_header.split_after (block_header.init zero_mem 0 64) 0 16).1
      (block_header.split_after (block_header.init zero_mem 0 64) 0 16).2)._size < 0
      ↔ (block_header.init zero_mem 0 64 0)._size < 0) :=
  split_after_spec (block_header.init zero_mem 0 64) 0 16
    (by decide) (by decide) (by decide) (by decide)

/-- C18, the claim as stated fails at `n = S - 8`: the tail block of a 64-byte page has
`S = 56`; after `split_after(48)` the returned block (at 56) has stored size 0, which is
not negative, although the original block was the tail. -/
theorem split_after_spec_counterexample :
    (block_header.init zero_mem 0 64 0)._size < 0 ∧
    (block_header.init zero_mem 0 64 0).size = 56 ∧
    (block_header.split_after (block_header.init zero_mem 0 64) 0 48).2 = 56 ∧
    ¬ ((block_header.split_after (block_header.init zero_mem 0 64) 0 48).1 56)._size < 0 := by
  decide

/-- C19, the code at the failing input: the tail block of a 64-byte page has `S = 56`; for
`n = 52` the remainder `S - n - 8` is `-4`, below 8, yet `split_after(52)` rewrites the
block's header (stored size 52) and writes a new header at address 60 with stored size 4,
whose body would end at 72, past the end of the page. -/
theorem split_after_has_no_remainder_guard :
    (block_header.init zero_mem 0 64 0).size - 52 - 8 < 8 ∧
    (block_header.split_after (block_header.init zero_mem 0 64) 0 52).1 0
      ≠ block_header.init zero_mem 0 64 0 ∧
    (block_header.split_after (block_header.init zero_mem 0 64) 0 52).2 = 60 ∧
    (block_header.split_after (block_header.init zero_mem 0 64) 0 52).1 60
      = { _prev_size := 52, _size := 4, _flags := 0 } := by
  decide

/-! ## Claims on the recycle bin, the free list and the hand-off -/

/-- C20, the code on every bin state: `fetch_block_from_middle` advances `_read_pos` by one;
when the claimed position is at most `_write_pos` and its slot is non-null it returns the
block of that slot and nulls the slot; in every other case it leaves the slots unchanged and
reaches the end of the function without a `return`, so it returns no value (not `nullptr`).
The empty ring is such a case. -/
theorem fetch_block_from_middle_spec (rb : recycle_bin) :
    (fetch_block_from_middle rb).1._read_pos = rb._read_pos + 1 ∧
    (rb._read_pos ≤ rb._write_pos ∧ rb._free_queue (ring_index rb._read_pos) ≠ 0 →
      (fetch_block_from_middle rb).2 = some (rb._free_queue (ring_index rb._read_pos)) ∧
      (fetch_block_from_middle rb).1._free_queue (ring_index rb._read_pos) = 0) ∧
    (¬ (rb._read_pos ≤ rb._write_pos ∧ rb._free_queue (ring_index rb._read_pos) ≠ 0) →
      (fetch_block_from_middle rb).2 = none ∧
      (fetch_block_from_middle rb).1._free_queue = rb._free_queue) ∧
    (fetch_block_from_middle recycle_bin.constructor).2 = none := by
  refine ⟨?_, ?_, ?_, by decide⟩
  · simp only [fetch_block_from_middle, recycle_bin.claim, recycle_bin.get_block,
      recycle_bin.clear_block, recycle_bin.set_block]
    split_ifs <;> rfl
  · rintro ⟨h1, h2⟩
    simp [fetch_block_from_middle, recycle_bin.claim, recycle_bin.get_block,
      recycle_bin.clear_block, recycle_bin.set_block, h1, h2]
  · intro h
    simp only [fetch_block_from_middle, recycle_bin.claim, recycle_bin.get_block,
      recycle_bin.clear_block, recycle_bin.set_block]
    by_cases h1 : rb._read_pos ≤ rb._write_pos
    · have h2 : rb._free_queue (ring_index rb._read_pos) = 0 := by
        by_contra h2; exact h ⟨h1, h2⟩
      simp [h1, h2]
    · simp [h1]

/-- C21 as amended. For every bin state with `available() < 0` and target depth
`0 ≤ t < 2^62`, `check_status` sets the target depth to `max(QUEUE_SIZE - 1, 2)` when
`t = 0` and to `max(QUEUE_SIZE - 1, 2 t)` otherwise, sets `_write_pos` to the old
`_read_pos`, advances `_read_pos` by one, leaves the ring unchanged and returns the new
target depth. -/
theorem check_status_demand (rb : recycle_bin) (hav : rb.available < 0)
    (h0 : 0 ≤ rb._full) (h1 : rb._full < 2 ^ 62) :
    rb.check_status.1._full
      = max ((QUEUE_SIZE : Int) - 1) (if rb._full = 0 then 2 else 2 * rb._full) ∧
    rb.check_status.1._write_pos = rb._read_pos ∧
    rb.check_status.1._read_pos = rb._read_pos + 1 ∧
    rb.check_status.1._free_queue = rb._free_queue ∧
    rb.check_status.2 = rb.check_status.1._full := by
  have hw : wrap64 (rb._full * 2) = rb._full * 2 := by unfold wrap64; omega
  refine ⟨?_, ?_, ?_, ?_, ?_⟩ <;>
    simp only [recycle_bin.check_status, if_pos hav, recycle_bin.claim, hw]
  simp only [QUEUE_SIZE]
  split_ifs <;> omega

/-- C21 as amended, at a concrete bin: one failed claim on the fresh bin. -/
theorem check_status_demand_witness :
    (fetch_block_from_middle recycle_bin.constructor).1.check_status.1._full
      = max ((QUEUE_SIZE : Int) - 1)
          (if (fetch_block_from_middle recycle_bin.constructor).1._full = 0 then 2
            else 2 * (fetch_block_from_middle recycle_bin.constructor).1._full) ∧
    (fetch_block_from_middle recycle_bin.constructor).1.check_status.1._write_pos
      = (fetch_block_from_middle recycle_bin.constructor).1._read_pos ∧
    (fetch_block_from_middle recycle_bin.constructor).1.check_status.1._read_pos
      = (fetch_block_from_middle recycle_bin.constructor).1._read_pos + 1 ∧
    (fetch_block_from_middle recycle_bin.constructor).1.check_status.1._free_queue
      = (fetch_block_from_middle recycle_bin.constructor).1._free_queue ∧
    (fetch_block_from_middle recycle_bin.constructor).1.check_status.2
      = (fetch_block_from_middle recycle_bin.constructor).1.check_status.1._full :=
  check_status_demand (fetch_block_from_middle recycle_bin.constructor).1
    (by decide) (by decide) (by decide)

/-- C21, the claim as stated fails for a large target depth: with `t = 2^62` the doubling
`_full *= 2` leaves the range of `int64_t`; the depth ends at `QUEUE_SIZE - 1 = 127`, not
at `max(QUEUE_SIZE - 1, 2 t)`. -/
theorem check_status_demand_counterexample :
    ({ recycle_bin.constructor with _read_pos := 1, _full := 2 ^ 62 } : recycle_bin).available
      < 0 ∧
    ({ recycle_bin.constructor with _read_pos := 1, _full := 2 ^ 62 } : recycle_bin).check_status.1._full
      = 127 ∧
    max ((QUEUE_SIZE : Int) - 1) (2 * 2 ^ 62) ≠ 127 := by
  decide

/-- C22, the code at the failing input: a bin whose target depth is already 127 and whose
consumers are one claim ahead (`available() = -1`). `check_status` doubles the depth and
clamps it from below with `max`, so it returns 254, more than `QUEUE_SIZE - 1`. -/
theorem check_status_exceeds_queue_size :
    ({ recycle_bin.constructor with _read_pos := 1, _full := 127 } : recycle_bin).check_status.2
      = 254 ∧
    (254 : Int) > (QUEUE_SIZE : Int) - 1 := by
  decide

/-- C23, the code at the failing inputs: a bin one claim behind (`check_status` asks for 127
blocks) whose free list holds `L = 0` blocks, or `L = 1` block (at address 100). In both
cases `produce_block_to_ring_buffer` ends in a null dereference: `get_cache_block` clears
MERGEABLE on the block `pop()` returned without testing it, and the list runs empty. -/
theorem produce_faults_when_list_runs_empty :
    ({ recycle_bin.constructor with _read_pos := 1 } : recycle_bin).check_status.2 = 127 ∧
    fault_of (recycle_bin.produce_block_to_ring_buffer zero_heap
      { recycle_bin.constructor with _read_pos := 1 }) = some Fault.null_deref ∧
    fault_of (do
      let c ← recycle_bin.cache_block zero_heap { recycle_bin.constructor with _read_pos := 1 } 100
      recycle_bin.produce_block_to_ring_buffer c.1 c.2) = some Fault.null_deref := by
  decide

/-- C24. Whenever `check_status` returns a value `≤ 0`, `produce_block_to_ring_buffer`
does not fault and publishes nothing: heap, ring slots, free list and `_write_pos` are
unchanged, `_full_count` grows by one and the call returns `false`. -/
theorem produce_nothing_when_not_needed (H : Heap) (rb : recycle_bin)
    (h : rb.check_status.2 ≤ 0) :
    ∃ rb1, rb.produce_block_to_ring_buffer H = .ok (H, rb1, false) ∧
      rb1._free_queue = rb._free_queue ∧ rb1._free_list = rb._free_list ∧
      rb1._write_pos = rb._write_pos ∧ rb1._full_count = rb._full_count + 1 := by
  have hn : ¬ 0 < rb.check_status.2 := by omega
  refine ⟨{ rb.check_status.1 with _full_count := rb.check_status.1._full_count + 1 }, ?_, ?_⟩
  · simp only [recycle_bin.produce_block_to_ring_buffer, if_neg hn]
  · have hav : ¬ rb.available < 0 := by
      intro hav
      have : rb.check_status.2 ≥ 127 := by
        simp only [recycle_bin.check_status, if_pos hav, QUEUE_SIZE]
        omega
      omega
    simp only [recycle_bin.check_status, if_neg hav]
    split_ifs <;> simp

/-- C24, at a concrete bin: the fresh bin, where `check_status` returns 0. -/
theorem produce_nothing_when_not_needed_witness :
    ∃ rb1, recycle_bin.constructor.produce_block_to_ring_buffer zero_heap
        = .ok (zero_heap, rb1, false) ∧
      rb1._free_queue = recycle_bin.constructor._free_queue ∧
      rb1._free_list = recycle_bin.constructor._free_list ∧
      rb1._write_pos = recycle_bin.constructor._write_pos ∧
      rb1._full_count = recycle_bin.constructor._full_count + 1 :=
  produce_nothing_when_not_needed zero_heap recycle_bin.constructor (by decide)

/-- C25, the code at the failing input: a bin with `_full_count = 10001`, `_read_pos = 1`,
`_write_pos = 3`, blocks 100, 200, 300 in slots 1, 2, 3 and an empty free list.
`reclaim_ring_buffer` pushes the blocks 100 and 200 onto the free list and never clears
their slots: afterwards block 100 is in slot 1 and in the free list. -/
theorem reclaim_leaves_block_in_slot :
    (result_of (recycle_bin.reclaim_ring_buffer zero_heap
      { _free_queue := fun i => if i = 1 then 100 else if i = 2 then 200
          else if i = 3 then 300 else 0,
        _read_pos := 1, _write_pos := 3, _full_count := 10001, _full := 3,
        _free_list := 0 })).map
      (fun r => (r.2._free_queue 1, block_list.traverse r.1.lnk 8 r.2._free_list))
    = some (100, [200, 100]) := by
  decide

/-- C26, the code at the failing input: the list built by `push(300)`, `push(200)`,
`push(100)` (traversal 100, 200, 300). After `remove(100)` (the head) and `remove(200)`
(the new head) the traversal from the head is 200, 300, not 300: removing the head leaves
the `prev` link of the new head pointing at the removed block, so the second `remove` takes
the branch for an inner block and leaves `_free_list` at 200. -/
theorem remove_head_twice_keeps_removed_block :
    result_of (do
      let p1 ← block_list.push zero_links 0 300
      let p2 ← block_list.push p1.1 p1.2 200
      let p3 ← block_list.push p2.1 p2.2 100
      let r1 ← block_list.remove p3.1 p3.2 100
      let r2 ← block_list.remove r1.1 r1.2 200
      pure (block_list.traverse p3.1 8 p3.2, block_list.traverse r1.1 8 r1.2,
        block_list.traverse r2.1 8 r2.2))
    = some ([100, 200, 300], [200, 300], [200, 300]) := by
  decide

/-- C28, the code at the failing input: the hand-off as `constructor()` leaves it
(`_gc_on_deck` null) and any block, here the one at address 100. `release` pushes onto
the list object at the address `_gc_on_deck` holds, which is null: the call ends in a
null dereference and nothing is handed off. -/
theorem release_faults_on_fresh_hand_off :
    fault_of (garbage_collect.release zero_heap garbage_collect.constructor 100)
      = some Fault.null_deref := by
  decide

/-! ## The intrusive free list -/

@[simp] theorem store_next_next (lk : Links) (h v x : Nat) :
    (store_next lk h v x).next = if x = h then v else (lk x).next := by
  unfold store_next; split <;> rfl

@[simp] theorem store_prev_next (lk : Links) (h v x : Nat) :
    (store_prev lk h v x).next = (lk x).next := by
  unfold store_prev; split <;> rfl

theorem is_list_frame (lk lk' : Links) (xs : List Nat) :
    ∀ head, (∀ x ∈ xs, (lk' x).next = (lk x).next) → is_list lk head xs →
      is_list lk' head xs := by
  induction xs with
  | nil => intro head _ h; exact h
  | cons x xs ih =>
    intro head hfr h
    obtain ⟨h1, h2, h3⟩ := h
    refine ⟨h1, h2, ?_⟩
    rw [hfr x (by simp)]
    exact ih _ (fun y hy => hfr y (List.mem_cons_of_mem _ hy)) h3

theorem is_list_ne_zero (lk : Links) (xs : List Nat) :
    ∀ head, is_list lk head xs → ∀ x ∈ xs, x ≠ 0 := by
  induction xs with
  | nil => intro _ _ x hx; simp at hx
  | cons y ys ih =>
    intro head h x hx
    obtain ⟨_, h2, h3⟩ := h
    rcases List.mem_cons.1 hx with rfl | hx
    · exact h2
    · exact ih _ h3 x hx

theorem is_list_head_zero_iff (lk : Links) (head : Nat) (xs : List Nat)
    (h : is_list lk head xs) : head = 0 ↔ xs = [] := by
  cases xs with
  | nil => exact ⟨fun _ => rfl, fun _ => h⟩
  | cons x xs =>
    obtain ⟨h1, h2, _⟩ := h
    constructor
    · intro h0; exact absurd (h1 ▸ h0) h2
    · intro h0; cases h0

/-- `push(h)` of a fresh block puts it in front of the list. -/
theorem is_list_push (lk : Links) (head : Nat) (xs : List Nat) (h : Nat)
    (hl : is_list lk head xs) (h0 : h ≠ 0) (hn : h ∉ xs) :
    ∃ lk1, block_list.push lk head h = .ok (lk1, h) ∧ is_list lk1 h (h :: xs) := by
  unfold block_list.push
  simp only [if_neg h0]
  refine ⟨_, rfl, rfl, h0, ?_⟩
  have hnext : ∀ y, y ≠ h →
      ((if head = 0 then store_next (store_prev (store_next lk h 0) h 0) h head
        else store_prev (store_next (store_prev (store_next lk h 0) h 0) h head) head h) y).next
        = (lk y).next := by
    intro y hy
    split_ifs <;> simp [hy]
  have hh : ((if head = 0 then store_next (store_prev (store_next lk h 0) h 0) h head
        else store_prev (store_next (store_prev (store_next lk h 0) h 0) h head) head h) h).next
        = head := by
    split_ifs <;> simp
  rw [hh]
  refine is_list_frame lk _ xs head ?_ hl
  intro y hy
  exact hnext y (fun e => hn (e ▸ hy))

/-- `pop()` on a non-empty list returns its first block and leaves the rest. -/
theorem is_list_pop (lk : Links) (head x : Nat) (xs : List Nat)
    (hl : is_list lk head (x :: xs)) :
    (block_list.pop lk head).2.2 = x ∧ (block_list.pop lk head).2.1 = (lk x).next ∧
    is_list (block_list.pop lk head).1 (block_list.pop lk head).2.1 xs := by
  obtain ⟨h1, h2, h3⟩ := hl
  subst h1
  have e : block_list.pop lk head = ((if (lk head).next = 0 then lk
      else store_prev lk (lk head).next 0), (lk head).next, head) := by
    unfold block_list.pop
    rw [if_neg h2]
  rw [e]
  refine ⟨rfl, rfl, ?_⟩
  refine is_list_frame lk _ xs _ ?_ h3
  intro y _
  split_ifs <;> simp

theorem pop_nil (lk : Links) : block_list.pop lk 0 = (lk, 0, 0) := by
  simp [block_list.pop]

/-- C27, the code at the failing input: the list built by `push(300)`, `push(200)`,
`push(100)`. After `remove(100)` and `remove(200)` the only block pushed and neither popped
nor removed is 300, yet the traversal from the head is still 200, 300 and `pop()` returns
200, a block that was removed; the `pop()` after it returns 300. (`remove` of the head moves
`_free_list` and leaves the `prev` link of the new head, so the second `remove` takes the
branch for an inner node.) -/
theorem pop_returns_removed_block :
    result_of (do
      let p1 ← block_list.push zero_links 0 300
      let p2 ← block_list.push p1.1 p1.2 200
      let p3 ← block_list.push p2.1 p2.2 100
      let r1 ← block_list.remove p3.1 p3.2 100
      let r2 ← block_list.remove r1.1 r1.2 200
      pure (r1.2, (r1.1 200).prev, r2.2, block_list.traverse r2.1 10 r2.2,
        (block_list.pop r2.1 r2.2).2.2,
        (block_list.pop (block_list.pop r2.1 r2.2).1 (block_list.pop r2.1 r2.2).2.1).2.2))
    = some (200, 100, 200, [200, 300], 200, 300) := by
  decide

/-! ## Single ownership in a recycle bin -/

theorem owned_once_congr (H : Heap) (rb rb' : recycle_bin) (got : List Nat) (next : Nat)
    (hq : rb'._free_queue = rb._free_queue) (hl : rb'._free_list = rb._free_list)
    (h : owned_once H rb got next) : owned_once H rb' got next := by
  unfold owned_once at *
  rw [hq, hl]
  exact h

/-- A consumer call that finds no block at its position returns no value and leaves the
ring as it is. -/
theorem fetch_block_from_middle_miss (rb : recycle_bin)
    (h : ¬ (rb._read_pos ≤ rb._write_pos ∧ rb._free_queue (ring_index rb._read_pos) ≠ 0)) :
    (fetch_block_from_middle rb).2 = none ∧
    (fetch_block_from_middle rb).1._free_queue = rb._free_queue := by
  simp only [fetch_block_from_middle, recycle_bin.claim, recycle_bin.get_block,
    recycle_bin.clear_block, recycle_bin.set_block]
  by_cases h1 : rb._read_pos ≤ rb._write_pos
  · have h2 : rb._free_queue (ring_index rb._read_pos) = 0 := by
      by_contra h2; exact h ⟨h1, h2⟩
    simp [h1, h2]
  · simp [h1]

theorem check_status_free_queue (rb : recycle_bin) :
    rb.check_status.1._free_queue = rb._free_queue ∧
    rb.check_status.1._free_list = rb._free_list := by
  simp only [recycle_bin.check_status, recycle_bin.claim]
  split_ifs <;> exact ⟨rfl, rfl⟩

theorem owned_once_claim (H : Heap) (rb : recycle_bin) (got : List Nat)
    (h : owned_once H rb got 0) :
    owned_once H (fetch_block_from_middle rb).1
      (if claimed (fetch_block_from_middle rb).2 = 0 then got
        else claimed (fetch_block_from_middle rb).2 :: got) 0 := by
  obtain ⟨xs, hl, hnd, hgd, hgx, hq, _⟩ := h
  by_cases hit : rb._read_pos ≤ rb._write_pos ∧ rb._free_queue (ring_index rb._read_pos) ≠ 0
  · obtain ⟨h1, h2⟩ := hit
    have e : fetch_block_from_middle rb
        = (({ rb with _read_pos := rb._read_pos + 1 } : recycle_bin).clear_block rb._read_pos,
            some (rb._free_queue (ring_index rb._read_pos))) := by
      simp [fetch_block_from_middle, recycle_bin.claim, recycle_bin.get_block, h1, h2]
    rw [e]
    simp only [claimed, Option.getD_some, if_neg h2]
    obtain ⟨q1, q2, q3⟩ := hq _ h2
    refine ⟨xs, hl, hnd, List.nodup_cons.2 ⟨q2, hgd⟩, ?_, ?_, fun h => absurd rfl h⟩
    · intro b hb
      rcases List.mem_cons.1 hb with rfl | hb
      · exact q1
      · exact hgx b hb
    · intro i hi
      simp only [recycle_bin.clear_block, recycle_bin.set_block] at hi ⊢
      by_cases hii : i = ring_index rb._read_pos
      · simp [hii] at hi
      · simp only [if_neg hii] at hi ⊢
        obtain ⟨p1, p2, p3⟩ := hq i hi
        refine ⟨p1, ?_, ?_⟩
        · intro hm
          rcases List.mem_cons.1 hm with hm | hm
          · exact hii (q3 i hm)
          · exact p2 hm
        · intro j hj
          by_cases hjj : j = ring_index rb._read_pos
          · simp only [if_pos hjj] at hj
            exact absurd hj.symm hi
          · simp only [if_neg hjj] at hj
            exact p3 j hj
  · have e : (fetch_block_from_middle rb).2 = none ∧
        (fetch_block_from_middle rb).1._free_queue = rb._free_queue :=
      fetch_block_from_middle_miss rb hit
    have el : (fetch_block_from_middle rb).1._free_list = rb._free_list := by
      simp only [fetch_block_from_middle, recycle_bin.claim, recycle_bin.get_block,
        recycle_bin.clear_block, recycle_bin.set_block]
      split_ifs <;> rfl
    rw [e.1]
    simp only [claimed, Option.getD_none, if_true]
    exact owned_once_congr H rb _ got 0 e.2 el ⟨xs, hl, hnd, hgd, hgx, hq, fun h => absurd rfl h⟩

theorem owned_once_get_cache_block (H H1 : Heap) (rb rb1 : recycle_bin) (got : List Nat)
    (nx : Nat) (h : owned_once H rb got 0)
    (hg : recycle_bin.get_cache_block H rb = .ok (H1, rb1, nx)) :
    owned_once H1 rb1 got nx := by
  obtain ⟨xs, hl, hnd, hgd, hgx, hq, _⟩ := h
  unfold recycle_bin.get_cache_block at hg
  simp only at hg
  split_ifs at hg with h0
  cases hg
  cases xs with
  | nil =>
    have : rb._free_list = 0 := hl
    rw [this, pop_nil] at h0
    exact absurd rfl h0
  | cons x rest =>
    obtain ⟨p1, _, p3⟩ := is_list_pop H.lnk rb._free_list x rest hl
    obtain ⟨hx, hrest⟩ := List.nodup_cons.1 hnd
    rw [p1]
    refine ⟨rest, p3, hrest, hgd, ?_, ?_, ?_⟩
    · intro b hb hm; exact hgx b hb (List.mem_cons_of_mem _ hm)
    · intro i hi
      obtain ⟨q1, q2, q3⟩ := hq i hi
      exact ⟨fun hm => q1 (List.mem_cons_of_mem _ hm), q2, q3⟩
    · intro _
      refine ⟨hx, ?_, ?_⟩
      · intro hm; exact hgx x hm (List.mem_cons_self _ _)
      · intro i hi
        have hne : rb._free_queue i ≠ 0 := by
          rw [hi]; exact hl.2.1
        exact (hq i hne).1 (hi ▸ List.mem_cons_self _ _)

theorem owned_once_cache_block (H H1 : Heap) (rb rb1 : recycle_bin) (got : List Nat)
    (nx : Nat) (h : owned_once H rb got nx) (hnx : nx ≠ 0)
    (hc : recycle_bin.cache_block H rb nx = .ok (H1, rb1)) :
    owned_once H1 rb1 got 0 := by
  obtain ⟨xs, hl, hnd, hgd, hgx, hq, hn⟩ := h
  obtain ⟨n1, n2, n3⟩ := hn hnx
  obtain ⟨lk1, hp, hl1⟩ := is_list_push H.lnk rb._free_list xs nx hl hnx n1
  unfold recycle_bin.cache_block at hc
  rw [hp] at hc
  cases hc
  refine ⟨nx :: xs, hl1, List.nodup_cons.2 ⟨n1, hnd⟩, hgd, ?_, ?_, fun h => absurd rfl h⟩
  · intro b hb hm
    rcases List.mem_cons.1 hm with rfl | hm
    · exact n2 hb
    · exact hgx b hb hm
  · intro i hi
    obtain ⟨q1, q2, q3⟩ := hq i hi
    refine ⟨?_, q2, q3⟩
    intro hm
    rcases List.mem_cons.1 hm with hm | hm
    · exact n3 i hm
    · exact q1 hm

theorem owned_once_set_block (H : Heap) (rb : recycle_bin) (got : List Nat) (nx : Nat)
    (pos : Int) (h : owned_once H rb got nx) (hnx : nx ≠ 0) :
    owned_once H (rb.set_block pos nx) got 0 := by
  obtain ⟨xs, hl, hnd, hgd, hgx, hq, hn⟩ := h
  obtain ⟨n1, n2, n3⟩ := hn hnx
  refine ⟨xs, hl, hnd, hgd, hgx, ?_, fun h => absurd rfl h⟩
  intro i hi
  simp only [recycle_bin.set_block] at hi ⊢
  by_cases hii : i = ring_index pos
  · simp only [if_pos hii]
    refine ⟨n1, n2, ?_⟩
    intro j hj
    by_cases hjj : j = ring_index pos
    · rw [hjj, hii]
    · simp only [if_neg hjj] at hj
      exact absurd hj (n3 j)
  · simp only [if_neg hii] at hi ⊢
    obtain ⟨q1, q2, q3⟩ := hq i hi
    refine ⟨q1, q2, ?_⟩
    intro j hj
    by_cases hjj : j = ring_index pos
    · simp only [if_pos hjj] at hj
      exact absurd hj.symm (n3 i)
    · simp only [if_neg hjj] at hj
      exact q3 j hj

theorem owned_once_produce_loop (got : List Nat) (k : Nat) :
    ∀ (H : Heap) (rb : recycle_bin) (next : Nat) (nwp : Int) (f : Bool)
      (H2 : Heap) (rb2 : recycle_bin) (next2 : Nat) (nwp2 : Int) (f2 : Bool),
      owned_once H rb got next →
      recycle_bin.produce_loop H rb next nwp f k = .ok (H2, rb2, next2, nwp2, f2) →
      owned_once H2 rb2 got next2 := by
  induction k with
  | zero =>
    intro H rb next nwp f H2 rb2 next2 nwp2 f2 h hp
    simp only [recycle_bin.produce_loop] at hp
    cases hp
    exact h
  | succ k ih =>
    intro H rb next nwp f H2 rb2 next2 nwp2 f2 h hp
    simp only [recycle_bin.produce_loop] at hp
    split_ifs at hp with h0 hs
    · cases hp; exact h
    · cases hg : recycle_bin.get_cache_block H (rb.set_block (nwp + 1) next) with
      | error e => rw [hg] at hp; cases hp
      | ok r =>
        obtain ⟨H1, rb1, nx1⟩ := r
        rw [hg] at hp
        simp only at hp
        have h1 := owned_once_set_block H rb got next (nwp + 1) h h0
        have h2 := owned_once_get_cache_block _ _ _ _ got nx1 h1 hg
        exact ih _ _ _ _ _ _ _ _ _ _ h2 hp
    · exact ih _ _ _ _ _ _ _ _ _ _ h hp

theorem owned_once_produce (H H1 : Heap) (rb rb1 : recycle_bin) (got : List Nat) (f : Bool)
    (h : owned_once H rb got 0)
    (hp : rb.produce_block_to_ring_buffer H = .ok (H1, rb1, f)) :
    owned_once H1 rb1 got 0 := by
  have hcs := check_status_free_queue rb
  unfold recycle_bin.produce_block_to_ring_buffer at hp
  simp only at hp
  split_ifs at hp with hn
  · have h0 : owned_once H { rb.check_status.1 with _full_count := 0 } got 0 :=
      owned_once_congr H rb _ got 0 hcs.1 hcs.2 h
    cases hg : recycle_bin.get_cache_block H { rb.check_status.1 with _full_count := 0 } with
    | error e => rw [hg] at hp; cases hp
    | ok r =>
      obtain ⟨Ha, rba, nxa⟩ := r
      rw [hg] at hp
      simp only at hp
      have h1 := owned_once_get_cache_block _ _ _ _ got nxa h0 hg
      cases hl : recycle_bin.produce_loop Ha rba nxa rba._write_pos false rb.check_status.2.toNat with
      | error e => rw [hl] at hp; cases hp
      | ok r2 =>
        obtain ⟨Hb, rbb, nxb, nwpb, fb⟩ := r2
        rw [hl] at hp
        simp only at hp
        have h2 := owned_once_produce_loop got _ _ _ _ _ _ _ _ _ _ _ h1 hl
        split_ifs at hp with hz
        · cases hp
          subst hz
          exact owned_once_congr _ _ _ got 0 rfl rfl h2
        · cases hc : recycle_bin.cache_block Hb rbb nxb with
          | error e => rw [hc] at hp; cases hp
          | ok r3 =>
            obtain ⟨Hc, rbc⟩ := r3
            rw [hc] at hp
            cases hp
            exact owned_once_congr _ rbc _ got 0 rfl rfl
              (owned_once_cache_block _ _ _ rbc got nxb h2 hz hc)
  · cases hp
    exact owned_once_congr H rb _ got 0 hcs.1 hcs.2 h

theorem owned_once_run_steps (steps : List bin_step) :
    ∀ (H : Heap) (rb : recycle_bin) (got : List Nat) (H1 : Heap) (rb1 : recycle_bin)
      (got1 : List Nat), owned_once H rb got 0 →
      run_steps H rb got steps = .ok (H1, rb1, got1) → owned_once H1 rb1 got1 0 := by
  induction steps with
  | nil =>
    intro H rb got H1 rb1 got1 h hr
    simp only [run_steps] at hr
    cases hr
    exact h
  | cons s ss ih =>
    intro H rb got H1 rb1 got1 h hr
    simp only [run_steps] at hr
    cases s with
    | consumer_claim =>
      simp only [bin_step.run] at hr
      exact ih _ _ _ _ _ _ (owned_once_claim H rb got h) hr
    | check_status =>
      simp only [bin_step.run, if_true] at hr
      have hcs := check_status_free_queue rb
      exact ih _ _ _ _ _ _ (owned_once_congr H rb _ got 0 hcs.1 hcs.2 h) hr
    | produce =>
      simp only [bin_step.run] at hr
      cases hp : rb.produce_block_to_ring_buffer H with
      | error e => rw [hp] at hr; cases hr
      | ok r =>
        obtain ⟨Ha, rba, fa⟩ := r
        rw [hp] at hr
        simp only [if_true] at hr
        exact ih _ _ _ _ _ _ (owned_once_produce _ _ _ _ got fa h hp) hr

/-- With whole calls taken as single steps: from a bin whose ring is empty and whose free
list holds pairwise distinct blocks, after every sequence of whole consumer calls,
`check_status` calls and publish passes that runs without a fault, the blocks the calls
returned are pairwise distinct. -/
theorem claims_return_distinct_blocks (H : Heap) (rb : recycle_bin) (xs : List Nat)
    (steps : List bin_step) (got : List Nat)
    (hring : ∀ i, rb._free_queue i = 0) (hl : is_list H.lnk rb._free_list xs)
    (hnd : xs.Nodup)
    (hr : (result_of (run_steps H rb [] steps)).map (fun r => r.2.2) = some got) :
    got.Nodup := by
  have h0 : owned_once H rb [] 0 :=
    ⟨xs, hl, hnd, List.nodup_nil, fun b hb => absurd hb (List.not_mem_nil _),
      fun i hi => absurd (hring i) hi, fun h => absurd rfl h⟩
  cases hrun : run_steps H rb [] steps with
  | error e => rw [hrun] at hr; simp [result_of] at hr
  | ok r =>
    obtain ⟨H1, rb1, got1⟩ := r
    rw [hrun] at hr
    simp only [result_of, Option.map_some', Option.some.injEq] at hr
    subst hr
    obtain ⟨_, _, _, hg, _⟩ := owned_once_run_steps steps H rb [] H1 rb1 got1 h0 hrun
    exact hg

set_option maxRecDepth 100000

set_option maxHeartbeats 4000000

/-- The three parts of a consumer call, run without interruption, are the call. -/
theorem fetch_block_from_middle_split (rb : recycle_bin) :
    fetch_take (fetch_claim rb).1 (fetch_read (fetch_claim rb).1 (fetch_claim rb).2)
      = fetch_block_from_middle rb := by
  simp only [fetch_take, fetch_read, fetch_claim, fetch_block_from_middle]
  split_ifs <;> simp_all

/-- C9, the code at the failing input: the fresh bin with a free list of 130 pairwise
distinct blocks. Thread `A` executes `claim(1)`, the one atomic operation of its call, and
gets position 0. Another call claims position 1 and fails; a publish pass publishes 127
blocks at the positions 3 to 129 (target depth 127), the one of position 128 into slot 0;
125 whole calls take the blocks of the positions 3 to 127. Thread `B` claims position 128.
Both `A` and `B` pass `claim_pos <= _write_pos` and read slot 0 before either clears it:
both calls return the block 8096. -/
theorem interleaved_claims_return_same_block :
    (block_list.traverse (list_of_blocks 4096 130) 200 4096).length = 130 ∧
    (block_list.traverse (list_of_blocks 4096 130) 200 4096).Nodup ∧
    ring_index 0 = ring_index 128 ∧
    (result_of (race_run (race_start 4096 130)
      ([race_step.claim_A, race_step.whole bin_step.consumer_claim,
          race_step.whole bin_step.produce]
        ++ List.replicate 125 (race_step.whole bin_step.consumer_claim)
        ++ [race_step.claim_B, race_step.read_A, race_step.read_B, race_step.take_A,
          race_step.take_B]))).map
      (fun st => (st.a.claim_pos, st.b.claim_pos, st.ret_a, st.ret_b, st.rb._full))
      = some (0, 128, some 8096, some 8096, 127) := by
  decide

/-! ## The positions of a recycle bin -/

theorem get_cache_block_counters (H H1 : Heap) (rb rb1 : recycle_bin) (nx : Nat)
    (hg : recycle_bin.get_cache_block H rb = .ok (H1, rb1, nx)) :
    rb1._read_pos = rb._read_pos ∧ rb1._full = rb._full ∧ rb1._write_pos = rb._write_pos := by
  unfold recycle_bin.get_cache_block at hg
  simp only at hg
  split_ifs at hg
  cases hg
  exact ⟨rfl, rfl, rfl⟩

theorem cache_block_counters (H H1 : Heap) (rb rb1 : recycle_bin) (nx : Nat)
    (hc : recycle_bin.cache_block H rb nx = .ok (H1, rb1)) :
    rb1._read_pos = rb._read_pos ∧ rb1._full = rb._full ∧ rb1._write_pos = rb._write_pos := by
  unfold recycle_bin.cache_block at hc
  cases hp : block_list.push H.lnk rb._free_list nx with
  | error e => rw [hp] at hc; cases hc
  | ok r =>
    rw [hp] at hc
    cases hc
    exact ⟨rfl, rfl, rfl⟩

theorem produce_loop_counters (k : Nat) :
    ∀ (H : Heap) (rb : recycle_bin) (next : Nat) (nwp : Int) (f : Bool)
      (H2 : Heap) (rb2 : recycle_bin) (next2 : Nat) (nwp2 : Int) (f2 : Bool),
      recycle_bin.produce_loop H rb next nwp f k = .ok (H2, rb2, next2, nwp2, f2) →
      rb2._read_pos = rb._read_pos ∧ rb2._full = rb._full ∧ nwp ≤ nwp2 ∧ nwp2 ≤ nwp + k := by
  induction k with
  | zero =>
    intro H rb next nwp f H2 rb2 next2 nwp2 f2 hp
    simp only [recycle_bin.produce_loop] at hp
    cases hp
    exact ⟨rfl, rfl, le_refl _, by simp⟩
  | succ k ih =>
    intro H rb next nwp f H2 rb2 next2 nwp2 f2 hp
    simp only [recycle_bin.produce_loop] at hp
    split_ifs at hp with h0 hs
    · cases hp
      exact ⟨rfl, rfl, le_refl _, by push_cast; omega⟩
    · cases hg : recycle_bin.get_cache_block H (rb.set_block (nwp + 1) next) with
      | error e => rw [hg] at hp; cases hp
      | ok r =>
        obtain ⟨H1, rb1, nx1⟩ := r
        rw [hg] at hp
        simp only at hp
        obtain ⟨g1, g2, _⟩ := get_cache_block_counters _ _ _ _ _ hg
        obtain ⟨i1, i2, i3, i4⟩ := ih _ _ _ _ _ _ _ _ _ _ hp
        refine ⟨by rw [i1, g1]; rfl, by rw [i2, g2]; rfl, by omega, by push_cast; omega⟩
    · obtain ⟨i1, i2, i3, i4⟩ := ih _ _ _ _ _ _ _ _ _ _ hp
      exact ⟨i1, i2, by omega, by push_cast; omega⟩

theorem produce_counters (H H1 : Heap) (rb rb1 : recycle_bin) (f : Bool)
    (hp : rb.produce_block_to_ring_buffer H = .ok (H1, rb1, f)) :
    rb1._read_pos = rb.check_status.1._read_pos ∧ rb1._full = rb.check_status.1._full ∧
    rb.check_status.1._write_pos ≤ rb1._write_pos ∧
    rb1._write_pos ≤ rb.check_status.1._write_pos + max 0 rb.check_status.2 := by
  unfold recycle_bin.produce_block_to_ring_buffer at hp
  simp only at hp
  split_ifs at hp with hn
  · cases hg : recycle_bin.get_cache_block H { rb.check_status.1 with _full_count := 0 } with
    | error e => rw [hg] at hp; cases hp
    | ok r =>
      obtain ⟨Ha, rba, nxa⟩ := r
      rw [hg] at hp
      simp only at hp
      obtain ⟨g1, g2, g3⟩ := get_cache_block_counters _ _ _ _ _ hg
      cases hl : recycle_bin.produce_loop Ha rba nxa rba._write_pos false rb.check_status.2.toNat with
      | error e => rw [hl] at hp; cases hp
      | ok r2 =>
        obtain ⟨Hb, rbb, nxb, nwpb, fb⟩ := r2
        rw [hl] at hp
        simp only at hp
        obtain ⟨l1, l2, l3, l4⟩ := produce_loop_counters _ _ _ _ _ _ _ _ _ _ _ hl
        simp only at g1 g2 g3
        split_ifs at hp with hz
        · cases hp
          simp only
          refine ⟨by rw [l1, g1], by rw [l2, g2], by omega, by omega⟩
        · cases hc : recycle_bin.cache_block Hb rbb nxb with
          | error e => rw [hc] at hp; cases hp
          | ok r3 =>
            obtain ⟨Hc, rbc⟩ := r3
            rw [hc] at hp
            cases hp
            obtain ⟨c1, c2, _⟩ := cache_block_counters _ _ _ _ _ hc
            simp only
            refine ⟨by rw [c1, l1, g1], by rw [c2, l2, g2], by omega, by omega⟩
  · cases hp
    exact ⟨rfl, rfl, le_refl _, by simp only; omega⟩

/-- What `check_status` does to the positions and the depth of a bin with
`0 ≤ _full ≤ 127` and `available() ≤ 127`, when the new depth is at most 127. -/
theorem check_status_bounds (rb : recycle_bin) (h0 : 0 ≤ rb._full) (h1 : rb._full ≤ 127)
    (hav : rb.available ≤ 127) (hok : rb.check_status.1._full ≤ 127) :
    0 ≤ rb.check_status.1._full ∧
    rb.check_status.1.available ≤ 127 ∧
    rb.check_status.1.available + max 0 rb.check_status.2 ≤ 127 := by
  unfold recycle_bin.available at *
  have hw : wrap64 (rb._full * 2) = rb._full * 2 := by unfold wrap64; omega
  have hw2 : rb._write_pos - rb._read_pos > 0 →
      wrap32 (rb._full - (rb._write_pos - rb._read_pos))
        = rb._full - (rb._write_pos - rb._read_pos) := by
    intro _; unfold wrap32; omega
  revert hok
  simp only [recycle_bin.check_status, recycle_bin.available, recycle_bin.claim, hw, QUEUE_SIZE]
  split_ifs with c1 c2 c3 c4
  all_goals simp only
  all_goals (try rw [hw2 (by omega)])
  all_goals intro hok
  all_goals omega

/-- C10, the code at the failing input: the fresh bin with a free list of 130 blocks. One
consumer call claims position 0 and fails (`write_pos - read_pos` is -1, below 0).
`check_status` takes the demand branch (target depth 127), and the publish pass that
follows takes it again: the depth is doubled to 254 and bounded from below by
`QUEUE_SIZE - 1`, so the pass advances `next_write_pos` 254 times, over 128 empty slots and
then over occupied ones. It ends with `write_pos = 256` and `read_pos = 3`: the difference
is 253, not below `QUEUE_SIZE`. -/
theorem available_exceeds_queue_size :
    (block_list.traverse (list_of_blocks 4096 130) 200 4096).length = 130 ∧
    (fetch_block_from_middle recycle_bin.constructor).1.available = -1 ∧
    (result_of (run_steps { hdr := zero_mem, lnk := list_of_blocks 4096 130 }
        { recycle_bin.constructor with _free_list := 4096 } []
        [bin_step.consumer_claim, bin_step.check_status, bin_step.produce])).map
      (fun r => (r.2.1._write_pos, r.2.1._read_pos, r.2.1._write_pos - r.2.1._read_pos,
        r.2.1._full)) = some (256, 3, 253, 254) ∧
    ¬ ((253 : Int) < QUEUE_SIZE) := by
  decide

/-! ## Claims on the slab engine -/

/-- C29, the code at the failing inputs. (1) On the empty bitmap of a fresh slab (cell size
16) `first_set_bit()` is 64 and `set(64)` fails its assertion `pos < 64`: `alloc` returns
no cell. (2) On a bitmap holding only cell 0 (`_bits = 2^63`) `first_set_bit()` is the
position of the set bit, 0: `alloc` leaves the bitmap as it is and returns
`data() + 0 * 16`, the cell that is already live; a second `alloc` returns it again. -/
theorem bin_info_alloc_picks_set_bit :
    fault_of (bin_info.alloc { size := 16, bindex := { _bits := 0 } } 1024)
      = some Fault.assert_failed ∧
    (result_of (bin_info.alloc { size := 16, bindex := { _bits := 2 ^ 63 } } 1024)).map
        (fun r => (r.1.bindex._bits, r.2.2)) = some (2 ^ 63, 1032) ∧
    (result_of (do
        let r1 ← bin_info.alloc { size := 16, bindex := { _bits := 2 ^ 63 } } 1024
        let r2 ← bin_info.alloc r1.1 1024
        pure (r1.2.2, r2.2.2))) = some (1032, 1032) := by
  decide

/-- C30, the code at the failing input: a slab at the aligned address 1024 with cell size
8; the cell at position 0 has address `1024 + 8 + 0 * 8 = 1032`, and `get_pos` returns 1
for it: the mask is `1016`, which keeps the 8 header bytes in the offset. -/
theorem get_pos_off_by_header :
    (1024 : Nat) % SMALL_BIN_CAPCITY = 0 ∧
    block_header.data 1024 + 0 * 8 = 1032 ∧
    result_of (get_pos 1032 8) = some 1 := by
  decide

set_option maxRecDepth 100000

/-! ## Claims on the thread arena

The runs below start from `fresh_state [1048576]`: a fresh process in which the first
`::mmap` returns the page-aligned address 1048576, with the sample size map. -/

/-- C1, the code at the failing input: on a fresh arena whose page is mapped at 1048576 (a
multiple of 8), `alloc(337)` returns 1048584 and leaves the tail of the split, whose header
is at `1048576 + 8 + 337`, in the front cache; the next `alloc(337)` is served from that
tail and returns 1048929, which is 1 modulo 8. -/
theorem alloc_returns_misaligned_pointer :
    (1048576 : Nat) % 8 = 0 ∧
    returned (alloc sample_sizemap 100 (fresh_state [1048576]) 337) = some 1048584 ∧
    ((state_after (alloc sample_sizemap 100 (fresh_state [1048576]) 337)).bind
      (fun st => returned (alloc sample_sizemap 100 st 337))) = some 1048929 ∧
    1048929 % 8 = 1 := by
  decide

/-- C2, the code at the failing input: after `alloc(337)` on the fresh arena the front cache
holds the tail at 1048921, whose body is 261791 bytes. `alloc(262000)` (a variable-bin
request: `262000 + 8 < LARGE_BLOCK`) is served from that block: it applies
`split_after(262000)` to a body of 261791 bytes and returns its data pointer 1048929; the
header then says `size() = 262000`, and the body would end past the end of the page
(`1048576 + 262144`). -/
theorem alloc_serves_request_from_smaller_block :
    SMALL_BLOCK < 262000 ∧ 262000 + 8 < LARGE_BLOCK ∧
    ((state_after (alloc sample_sizemap 100 (fresh_state [1048576]) 337)).map
      (fun st => ((st.heap.hdr 1048921).size, returned (alloc sample_sizemap 100 st 262000),
        (state_after (alloc sample_sizemap 100 st 262000)).map
          (fun st2 => (st2.heap.hdr 1048921).size))))
      = some (261791, some 1048929, some 262000) ∧
    (261791 : Int) < 262000 ∧ 1048929 + 262000 > 1048576 + 262144 := by
  decide

/-- C3, the code at the failing input: after `alloc(337)` on the fresh arena, the next
`alloc(337)` finds the cached block 1048921 in slot 76, not the slot of `min_bin`. It
returns the data pointer of that block, 1048929, and stores the same block, not the tail,
back into slot 76: the block is held by the caller and by the front cache. The tail of the
split (header at 1049266) is in no slot of the front cache that `alloc` indexes (-21 to 78),
and the hand-off is empty: the tail is dropped. -/
theorem alloc_hit_caches_returned_block_and_drops_tail :
    ((state_after (alloc sample_sizemap 100 (fresh_state [1048576]) 337)).bind
      (fun st => (result_of (alloc sample_sizemap 100 st 337)).map
        (fun r => (r.2, r.1.ta._large_bin_allocator._bin_cache 76,
          block_header.next r.1.heap.hdr 1048921,
          (List.range 100).all
            (fun i => r.1.ta._large_bin_allocator._bin_cache ((i : Int) - 21) != 1049266),
          r.1.ta._garbage_collect))))
      = some (1048929, 1048921, 1049266, true, { _gc_at_bat := 0, _gc_on_deck := 0 }) ∧
    block_header.data 1048921 = 1048929 := by
  decide

/-- C4, the code at the failing inputs. (1) In `slab_state` the pointer 1032 (cell 0 of the
slab at 1024) has a descriptor with cell size 16. `free(1032)` leaves the bitmap as it is
(cell 0 still live) and takes the block path instead: it reads the header at 1024 and
releases that address to the hand-off (`_gc_at_bat` becomes 5000, the list object there
now holds 1024). (2) On a fresh arena, where 1032 has no descriptor, `free(1032)` does
call `free_small`, which divides by the cell size 0. -/
theorem free_takes_block_path_for_slab_cell :
    (slab_state.gc.pmap.get (get_number 1032)) = { size := 16, bindex := { _bits := 2 ^ 63 } } ∧
    (result_of (free slab_state 1032)).map
      (fun st => (st.gc.pmap.get (get_number 1032), st.ta._garbage_collect,
        word_of_header (st.heap.hdr 5000), st.os.unmapped))
      = some ({ size := 16, bindex := { _bits := 2 ^ 63 } },
          { _gc_at_bat := 5000, _gc_on_deck := 0 }, 1024, []) ∧
    fault_of (free (fresh_state [1048576]) 1032) = some Fault.div_by_zero := by
  decide

/-- C5, the code at the failing inputs `s = LARGE_BLOCK - 8` and `s = LARGE_BLOCK`: on the
fresh arena `alloc(s)` maps a page at 1048576 and returns 1048584; the block carries BIG
(flags 2) and has `size() = s`. `free` of that pointer faults in the slab half (division by
the cell size 0); its block half compares `size() <= LARGE_BLOCK`, which holds, and calls
`release` (a null dereference on the fresh hand-off; with `_gc_on_deck` at 5000 the block
1048576 is handed off); in neither case is anything unmapped. -/
theorem free_hands_big_block_to_collector :
    (LARGE_BLOCK - 8 = 262136 ∧ LARGE_BLOCK = 262144) ∧
    (result_of (alloc sample_sizemap 100 (fresh_state [1048576]) 262136)).map
      (fun r => (r.2, (r.1.heap.hdr 1048576)._flags, (r.1.heap.hdr 1048576).size))
      = some (1048584, 2, 262136) ∧
    (result_of (alloc sample_sizemap 100 (fresh_state [1048576]) 262136)).map
      (fun r => (fault_of (free r.1 r.2), fault_of (free_block r.1 r.2)))
      = some (some Fault.div_by_zero, some Fault.null_deref) ∧
    (result_of (alloc sample_sizemap 100 (fresh_state [1048576]) 262136)).bind
      (fun r => (result_of (free_block
        (r.1.set_hand_off { _gc_at_bat := 0, _gc_on_deck := 5000 }) r.2)).map
          (fun st => (st.ta._garbage_collect, word_of_header (st.heap.hdr 5000),
            st.os.unmapped)))
      = some ({ _gc_at_bat := 5000, _gc_on_deck := 0 }, 1048576, []) ∧
    (result_of (alloc sample_sizemap 100 (fresh_state [1048576]) 262144)).map
      (fun r => (r.2, (r.1.heap.hdr 1048576)._flags, (r.1.heap.hdr 1048576).size))
      = some (1048584, 2, 262144) ∧
    (result_of (alloc sample_sizemap 100 (fresh_state [1048576]) 262144)).map
      (fun r => (fault_of (free r.1 r.2), fault_of (free_block r.1 r.2)))
      = some (some Fault.div_by_zero, some Fault.null_deref) ∧
    (result_of (alloc sample_sizemap 100 (fresh_state [1048576]) 262144)).bind
      (fun r => (result_of (free_block
        (r.1.set_hand_off { _gc_at_bat := 0, _gc_on_deck := 5000 }) r.2)).map
          (fun st => (st.ta._garbage_collect, word_of_header (st.heap.hdr 5000),
            st.os.unmapped)))
      = some ({ _gc_at_bat := 5000, _gc_on_deck := 0 }, 1048576, []) := by
  decide

/-- C11, the code at the failing inputs: when `::mmap` refuses the mapping (`MAP_FAILED`)
`alloc` returns nothing on the slab path (`s = 8`), the variable-bin path (`s = 337`) and
the huge path (`s = 300000`): `mmap_alloc` tests the result against null only, and `init`
writes the header at `MAP_FAILED`. When `::mmap` returns null, `mmap_alloc` throws
`std::bad_alloc`. -/
theorem alloc_on_refused_mapping :
    (∀ s ∈ [8, 337, 300000],
      fault_of (alloc sample_sizemap 100 (fresh_state [MAP_FAILED]) s) = some Fault.segv ∧
      returned (alloc sample_sizemap 100 (fresh_state [MAP_FAILED]) s) = none) ∧
    (∀ s ∈ [8, 337, 300000],
      fault_of (alloc sample_sizemap 100 (fresh_state [0]) s) = some Fault.bad_alloc) := by
  decide

/-- C12, the code at the failing input: on a fresh arena `free(nullptr)` (and `gc_free`)
does not return: there is no null test, the page-map lookup yields the sentinel of size 0,
`is_mapped` answers true for it, and `free_small` divides by the cell size 0. -/
theorem free_null_faults :
    fault_of (free (fresh_state [1048576]) 0) = some Fault.div_by_zero ∧
    fault_of (gc_free (fresh_state [1048576]) 0) = some Fault.div_by_zero := by
  decide

/-- C13, the code at the failing input: for the `size_t` request `s = 2^64 - 1`, which is
above `SMALL_BLOCK` and for which `s + 8 < LARGE_BLOCK` is false, `alloc` takes the
variable-bin path, not the huge path: the sum `s + HEDER_SIZE` wraps to 7. -/
theorem alloc_dispatch_wraps (sm : sizemap) (fuel : Nat) (st : State) :
    alloc sm fuel st (2 ^ 64 - 1) = alloc_variable sm fuel st (2 ^ 64 - 1) ∧
    ¬ ((2 ^ 64 - 1 : Nat) + 8 < LARGE_BLOCK) := by
  refine ⟨?_, by decide⟩
  unfold alloc clamp_request
  have e1 : ¬ ((2 ^ 64 - 1 : Nat) = 0) := by decide
  have e2 : ¬ ((2 ^ 64 - 1 : Nat) < MIN_BLOCK_SIZE) := by decide
  have e3 : ¬ ((2 ^ 64 - 1 : Nat) ≤ SMALL_BLOCK) := by decide
  have e4 : (2 ^ 64 - 1 + HEDER_SIZE) % 2 ^ 64 < LARGE_BLOCK := by decide
  rw [if_neg e1, if_neg e2, if_neg e3, if_pos e4]

/-- C15. For every size map, fuel and state, `alloc(0)` returns null and leaves the state
as it is; so does `gc_malloc(0)`. -/
theorem alloc_zero (sm : sizemap) (fuel : Nat) (st : State) :
    alloc sm fuel st 0 = .ok (st, 0) ∧ gc_malloc sm fuel st 0 = .ok (st, 0) := by
  constructor
  · simp [alloc]
  · simp [gc_malloc, alloc]

/-- C16, the code at the failing inputs, on the page of four blocks at 4096 (bodies of 24
bytes, none flagged). (1) The collector drains 4160 and then its predecessor 4128: each is
cached in the free list of class 2, and they are not fused: both headers keep `size() = 24`
and the flags of both are 0 (`is_aligned()` in `find_recycle_bin_for` cleared MERGEABLE).
(2) When 4160 is cached and flagged MERGEABLE by hand before 4128 is drained, 4160 is taken
out of its free list and still not fused: it is in no free list afterwards. (3) Draining the
first block or the tail of the page dereferences a null neighbour. -/
theorem collector_does_not_fuse_neighbours :
    ((result_of (collect_block sample_sizemap four_block_page 4160)).bind
      (fun st => result_of (collect_block sample_sizemap st 4128))).map
        (fun st => (st.heap.hdr 4128, st.heap.hdr 4160,
          block_list.traverse st.heap.lnk 10 (st.gc._bins 2)._free_list))
      = some ({ _prev_size := 24, _size := 24, _flags := 0 },
          { _prev_size := 24, _size := 24, _flags := 0 }, [4128, 4160]) ∧
    ((result_of (collect_block sample_sizemap four_block_page 4160)).bind
      (fun st => result_of (collect_block sample_sizemap
        (st.set_hdr (block_header.set_state st.heap.hdr 4160 block_header.mergable)) 4128))).map
        (fun st => (st.heap.hdr 4128, st.heap.hdr 4160,
          (List.range 78).map
            (fun i => block_list.traverse st.heap.lnk 10 (st.gc._bins i)._free_list),
          block_list.traverse st.heap.lnk 10 st.gc._algin_bin._free_list,
          block_list.traverse st.heap.lnk 10 st.gc._meta_bin._free_list))
      = some ({ _prev_size := 24, _size := 24, _flags := 0 },
          { _prev_size := 24, _size := 24, _flags := 0 },
          (List.range 78).map (fun i => if i = 2 then [4128] else []), [], []) ∧
    fault_of (collect_block sample_sizemap four_block_page 4096) = some Fault.null_deref ∧
    fault_of (collect_block sample_sizemap four_block_page 4192) = some Fault.null_deref := by
  decide

/-! ## Claims on the slab descriptor, the page map, the size map and the header fields -/

/-- C34, the code at the failing inputs. `get` declares the local `bin_info b(0)` and
returns a reference to it when the leaf is missing or the entry has size 0 (`none` below):
the object is gone when the caller holds the reference, so no descriptor of cell size 0 is
returned. That is so for every key of the fresh page map, and for the key `k` right after
`init(k, h)`; only an entry written by `set` with a non-zero size is returned by reference
to the leaf. -/
theorem pagemap_get_returns_dead_local :
    (∀ n : Nat, pagemap.get_ref pagemap.constructor n = none) ∧
    (∀ (p : pagemap) (k h : Nat),
      (result_of (p.init k h)).map (fun p2 => (p2.is_init k, p2.get_ref k))
        = (result_of (p.init k h)).map (fun _ => (true, none))) ∧
    (result_of (do
      let p1 ← pagemap.init pagemap.constructor 0 8192
      let p2 ← p1.set 5 { size := 16, bindex := { _bits := 0 } }
      pure (p1.get_ref 5, p2.get_ref 5, p2.get_ref 6))) = some (none, some (8192, 5), none) := by
  refine ⟨?_, ?_, by decide⟩
  · intro n
    simp [pagemap.get_ref, pagemap.constructor]
  · intro p k h
    by_cases hh : h = 0
    · simp [pagemap.init, hh, result_of]
    · simp [pagemap.init, hh, result_of, pagemap.is_init, pagemap.get_ref]

/-- C36. For every `s ≤ kMaxSize`, `ClassIndex(s)` returns the index of the
specification, `ceil(s / 8)` up to 1024 and `(s + 127 + 15360) div 128` above; the index
is below `kClassArraySize`, and it does not decrease when `s` grows up to `kMaxSize`. At
the seam: `ClassIndex(1024) = 128`, `ClassIndex(1025) = 129`, `ClassIndex(32768) = 376`. -/
theorem ClassIndex_spec (s : Nat) (hs : s ≤ kMaxSize) :
    ClassIndex s = some (spec_ClassIndex s) ∧
    (s ≤ 1024 → s ≤ 8 * spec_ClassIndex s ∧ 8 * spec_ClassIndex s < s + 8) ∧
    spec_ClassIndex s < kClassArraySize ∧
    (∀ t, s ≤ t → t ≤ kMaxSize → ∀ i j, ClassIndex s = some i → ClassIndex t = some j → i ≤ j) ∧
    ClassIndex 1024 = some 128 ∧ ClassIndex 1025 = some 129 ∧ ClassIndex 32768 = some 376 := by
  have hk : kMaxSize = 262144 := by decide
  have key : ∀ u : Nat, u ≤ kMaxSize → ClassIndex u = some (spec_ClassIndex u) := by
    intro u hu
    have hmod : u % 2 ^ 32 = u := Nat.mod_eq_of_lt (by omega)
    unfold ClassIndex spec_ClassIndex
    simp only [kMaxSmallSize, hmod, Nat.shiftRight_eq_div_pow, Nat.shiftLeft_eq]
    by_cases h1 : u ≤ 1024
    · simp [h1]
    · simp [h1, hu]
  refine ⟨key s hs, ?_, ?_, ?_, by decide, by decide, by decide⟩
  · intro h1
    unfold spec_ClassIndex
    rw [if_pos h1]
    omega
  · unfold spec_ClassIndex
    have : kClassArraySize = 2169 := by decide
    split_ifs <;> omega
  · intro t hst ht i j hi hj
    rw [key s hs] at hi
    rw [key t ht] at hj
    cases hi
    cases hj
    unfold spec_ClassIndex
    split_ifs <;> omega

/-- C36 at a concrete size: the seam `s = 1024`. -/
theorem ClassIndex_spec_witness :
    1024 ≤ kMaxSize ∧ ClassIndex 1024 = some (spec_ClassIndex 1024) ∧
    spec_ClassIndex 1024 = 128 ∧ spec_ClassIndex 1024 < kClassArraySize :=
  ⟨by decide, (ClassIndex_spec 1024 (by decide)).1, by decide,
    (ClassIndex_spec 1024 (by decide)).2.2.1⟩

/-- C32, the code at the failing input: `get_number` shifts the address right by
`SMALL_BIN_SIZE` (1016), not by `SMALL_BIN_BITS` (10), so every address below `2^48` has
key 0: the addresses 0 and 1024 lie in different chunks of `SMALL_BIN_CAPCITY` bytes and
have the same key. -/
theorem get_number_is_constant :
    (∀ a : Nat, get_number (a % 2 ^ 48) = 0) ∧
    get_number 0 = get_number 1024 ∧
    0 / SMALL_BIN_CAPCITY ≠ 1024 / SMALL_BIN_CAPCITY := by
  refine ⟨?_, by decide, by decide⟩
  intro a
  have h1 : a % 2 ^ 48 < 2 ^ 48 := Nat.mod_lt _ (by positivity)
  have h2 : (2 : Nat) ^ 48 ≤ 2 ^ SMALL_BIN_SIZE :=
    Nat.pow_le_pow_right (by decide) (by decide)
  unfold get_number
  rw [Nat.shiftRight_eq_div_pow]
  exact Nat.div_eq_of_lt (lt_of_lt_of_le h1 h2)

/-- C33, the code at the failing input: the root array has `KROOT_LENGTH = 2^8 = 256`
entries (`KROOT_BITS` is `BITS - KLEAF_BITS`, not the 23 bits left above the leaf index).
The address `2^33`, below `2^48`, has page key `2^23`, whose root index is 256: `init` for
that key writes `root[256]`, one past the array. The leaf index is below `KLEAF_LENGTH`
for every key. -/
theorem pagemap_root_index_out_of_range :
    KROOT_LENGTH = 256 ∧ (2 ^ 33 : Nat) < 2 ^ POINTER_BITS_64 ∧
    (2 ^ 33 : Nat) >>> SMALL_BIN_BITS = 2 ^ 23 ∧
    ((2 ^ 33 : Nat) >>> SMALL_BIN_BITS) >>> KLEAF_BITS = 256 ∧
    (result_of (pagemap.init pagemap.constructor ((2 ^ 33 : Nat) >>> SMALL_BIN_BITS) 8192)).map
      (fun p => (p.root 256, p.is_init ((2 ^ 33 : Nat) >>> SMALL_BIN_BITS))) = some (8192, true) ∧
    (∀ n : Nat, n &&& (KLEAF_LENGTH - 1) < KLEAF_LENGTH) := by
  refine ⟨by decide, by decide, by decide, by decide, by decide, ?_⟩
  intro n
  have h : n &&& (KLEAF_LENGTH - 1) ≤ KLEAF_LENGTH - 1 := Nat.and_le_right
  have h2 : KLEAF_LENGTH = 32768 := by decide
  omega

/-- C37, the code at the failing input: `_size` is a bit-field of 28 bits. For the page
length `2^28 + 8` (below 2 GB) `init` stores `-(2^28)`, which the field holds as 0:
`size()` is 0, not `2^28`, and the block is not a tail. The huge request `n = 2^28` maps
`n + 8` bytes at 1048576 and returns a block with `size() = 0`; `free` of it finds
`size() <= LARGE_BLOCK` and releases the block to the hand-off; nothing is unmapped. -/
theorem init_size_field_wraps :
    ((8 : Int) ≤ 2 ^ 28 + 8 ∧ (2 ^ 28 + 8 : Int) ≤ 2 ^ 31) ∧
    block_header.init zero_mem 4096 (2 ^ 28 + 8) 4096
      = { _prev_size := 0, _size := 0, _flags := 0 } ∧
    (result_of (alloc sample_sizemap 100 (fresh_state [1048576]) (2 ^ 28))).map
      (fun r => (r.2, (r.1.heap.hdr 1048576).size, r.1.os.mapped))
      = some (1048584, 0, [(1048576, 2 ^ 28 + 8)]) ∧
    (result_of (alloc sample_sizemap 100 (fresh_state [1048576]) (2 ^ 28))).bind
      (fun r => (result_of (free_block
        (r.1.set_hand_off { _gc_at_bat := 0, _gc_on_deck := 5000 }) r.2)).map
          (fun st => (st.ta._garbage_collect, word_of_header (st.heap.hdr 5000),
            st.os.unmapped)))
      = some ({ _gc_at_bat := 5000, _gc_on_deck := 0 }, 1048576, []) := by
  decide

/-- C38, the code at the failing input. For every header, each flag query stores
`_flags & flag` back into the header. On a block with ALIGN and MERGEABLE set (flags 5)
`is_aligned()` answers true and leaves flags 4; `is_mergable()` asked after it answers
false, where asked first it answers true; `find_recycle_bin_for` leaves the block with
flags 4. -/
theorem flag_queries_clear_other_flags :
    (∀ (m : Mem) (h : Nat),
      ((block_header.is_mergable m h).1 h)._flags = (m h)._flags &&& block_header.mergable ∧
      ((block_header.is_bigdata m h).1 h)._flags = (m h)._flags &&& block_header.bigdata ∧
      ((block_header.is_aligned m h).1 h)._flags = (m h)._flags &&& block_header.alignblock ∧
      ((block_header.is_meta m h).1 h)._flags = (m h)._flags &&& block_header.metablock) ∧
    block_header.alignblock ||| block_header.mergable = 5 ∧
    (block_header.is_mergable (store_flags zero_mem 4096 5) 4096).2 = true ∧
    (block_header.is_aligned (store_flags zero_mem 4096 5) 4096).2 = true ∧
    ((block_header.is_aligned (store_flags zero_mem 4096 5) 4096).1 4096)._flags = 4 ∧
    (block_header.is_mergable
      (block_header.is_aligned (store_flags zero_mem 4096 5) 4096).1 4096).2 = false ∧
    (result_of (find_recycle_bin_for sample_sizemap (store_flags zero_mem 4096 5) 4096)).map
      (fun r => ((r.1 4096)._flags, r.2)) = some (4, bin_ref.align) := by
  refine ⟨?_, by decide, by decide, by decide, by decide, by decide, by decide⟩
  intro m h
  have key : ∀ x k : Nat, k < 16 → (x &&& k) % 16 = x &&& k :=
    fun x k hk => Nat.mod_eq_of_lt (lt_of_le_of_lt Nat.and_le_right hk)
  simp only [block_header.is_mergable, block_header.is_bigdata, block_header.is_aligned,
    block_header.is_meta, store_flags_flags, if_true]
  exact ⟨key _ _ (by decide), key _ _ (by decide), key _ _ (by decide), key _ _ (by decide)⟩

/-- C39, the code for every bin: when `check_status` takes the demand branch
(`available() < 0`), it sets `_write_pos` to the old `_read_pos` and moves `_read_pos` one
further, so `available()` is -1 afterwards; a call of `check_status` right after it takes
the demand branch again and doubles the target depth a second time. -/
theorem check_status_demand_repeats (rb : recycle_bin) (hav : rb.available < 0) :
    rb.check_status.1.available = -1 ∧
    rb.check_status.1.check_status.1._full
      = max (max (-1) (wrap64 (rb.check_status.1._full * 2))) ((QUEUE_SIZE : Int) - 1) ∧
    rb.check_status.1.check_status.1._read_pos = rb._read_pos + 2 := by
  have e1 : rb.check_status.1.available = -1 := by
    simp only [recycle_bin.check_status, if_pos hav, recycle_bin.claim]
    simp only [recycle_bin.available]
    omega
  have hneg : rb.check_status.1.available < 0 := by rw [e1]; decide
  have hf : rb.check_status.1._full ≠ 0 := by
    simp only [recycle_bin.check_status, if_pos hav, recycle_bin.claim, QUEUE_SIZE]
    omega
  have hr : rb.check_status.1._read_pos = rb._read_pos + 1 := by
    simp only [recycle_bin.check_status, if_pos hav, recycle_bin.claim]
  refine ⟨e1, ?_, ?_⟩
  · generalize rb.check_status.1 = rb1 at *
    simp only [recycle_bin.check_status, if_pos hneg, recycle_bin.claim, if_neg hf]
    rw [e1]
  · generalize rb.check_status.1 = rb1 at *
    simp only [recycle_bin.check_status, if_pos hneg, recycle_bin.claim, hr]
    omega

/-- C39 at a concrete bin: the fresh bin after one failed claim. The first `check_status`
sets the depth to 127 and leaves `available() = -1`; the second sets it to 254. -/
theorem check_status_demand_repeats_witness :
    (fetch_block_from_middle recycle_bin.constructor).1.available < 0 ∧
    ((fetch_block_from_middle recycle_bin.constructor).1.check_status.1.available = -1 ∧
    (fetch_block_from_middle recycle_bin.constructor).1.check_status.1.check_status.1._full
      = max (max (-1)
          (wrap64 ((fetch_block_from_middle recycle_bin.constructor).1.check_status.1._full * 2)))
          ((QUEUE_SIZE : Int) - 1) ∧
    (fetch_block_from_middle recycle_bin.constructor).1.check_status.1.check_status.1._read_pos
      = (fetch_block_from_middle recycle_bin.constructor).1._read_pos + 2) ∧
    (fetch_block_from_middle recycle_bin.constructor).1.check_status.1._full = 127 ∧
    (fetch_block_from_middle recycle_bin.constructor).1.check_status.1.check_status.1._full
      = 254 :=
  ⟨by decide,
    check_status_demand_repeats (fetch_block_from_middle recycle_bin.constructor).1 (by decide),
    by decide, by decide⟩

/-- C40, the code at the failing input: the meta allocator with an empty list and an empty
middle tier, the next `::mmap` returning 1048576, and a hand-off whose `_gc_on_deck` is
5000. `fetch_block_from_second_cache_above` maps a META page of `META_CHUNK_SIZE` bytes,
cuts it with `split_after(SMALL_BIN_SIZE)` and returns the first piece: a block with
`size() = 1016`, below `LEAF_SIZE = 524288`. On the fresh hand-off the call ends in the
null dereference of `release`. -/
theorem meta_fetch_returns_small_block :
    LEAF_SIZE = 524288 ∧
    (result_of (fetch_block_from_second_cache_above LEAF_SIZE zero_heap
        { script := [1048576], mapped := [], unmapped := [] }
        { _gc_at_bat := 0, _gc_on_deck := 5000 } fixed_bin_allocator.constructor
        recycle_bin.constructor block_header.metablock META_CHUNK_SIZE
        (LIST_CACHE_NUM / 2))).map
      (fun r => (r.2.2.2.2.2, (r.1.hdr r.2.2.2.2.2).size, (r.1.hdr r.2.2.2.2.2)._flags,
        r.2.1.mapped)) = some (1048576, 1016, 8, [(1048576, META_CHUNK_SIZE)]) ∧
    (1016 : Int) < LEAF_SIZE ∧
    fault_of (fetch_block_from_second_cache_above LEAF_SIZE zero_heap
        { script := [1048576], mapped := [], unmapped := [] }
        garbage_collect.constructor fixed_bin_allocator.constructor
        recycle_bin.constructor block_header.metablock META_CHUNK_SIZE
        (LIST_CACHE_NUM / 2)) = some Fault.null_deref := by
  decide

set_option maxHeartbeats 4000000

/-- C35, the code at the failing input. The table `sample_kSizeClasses` has the shape the
claim asks for; by the claim the classes of 8, 16, 24 and 32 are 1, 2, 3 and 4.
`init_class_array` reads only the element after the last class and the local array, which
it never fills from the table. With the value 24 after the table and a zeroed local array,
`get_sizeclass` answers 1 for 8, 16 and 24, and 0 for 32. -/
theorem init_class_array_ignores_table :
    table_ok (sample_kSizeClasses 24) = true ∧
    [8, 16, 24, 32].map (spec_class_of (sample_kSizeClasses 24))
      = [some 1, some 2, some 3, some 4] ∧
    (result_of (sizemap.constructor (sample_kSizeClasses 24) (fun _ => 1) (fun _ => 0))).map
      (fun sm => [8, 16, 24, 32].map (fun s => result_of (sm.get_sizeclass s)))
      = some [some 1, some 1, some 1, some 0] := by
  decide

end fc_malloc2
